import Mathlib

set_option maxRecDepth 3000

/-!
Shallow embedding of the InterstellarTradeInspector synthetic-dataset
generators (src/tools/generate_planets.py, generate_vessels.py,
generate_passenger.py, generate_cargo.py, generate_log.py) and proofs of
the behavioural claims about them.

Modelling conventions:
* Python's `random` module is modelled as an abstract source `RandGen σ`
  of primitive draws (`random.random()`, `random.uniform`, `random.randint`,
  the index drawn by `random.choice`, and `random.seed`), threaded
  explicitly through every generator in the exact order the source
  consumes draws.  A well-formedness predicate `WF` captures the
  documented ranges of the primitives ([0,1) for `random()`, [a,b] for
  `uniform`, [lo,hi] for `randint`).
* Python floats are modelled as exact rationals; machine integers as ℤ/ℕ.
* Python's `str(n)` for a natural number is modelled by `decRepr`
  (standard decimal rendering).
* A Python function that can raise (e.g. `items[-1]` on an empty list)
  is modelled with `Option`, `none` standing for the raised exception.
-/

/-- Decimal digit character, `chr(48 + d)` for a digit value `d < 10`. -/
def digitChr (d : Nat) : Char := Char.ofNat (48 + d)

/-- Decimal digits (big-endian) of a natural number, as characters. -/
def decChars (n : Nat) : List Char :=
  if _h : n < 10 then [digitChr n]
  else decChars (n / 10) ++ [digitChr (n % 10)]
  decreasing_by exact Nat.div_lt_self (by omega) (by omega)

/-- Decimal string of a natural number (Python `str(n)` for `n ≥ 0`). -/
def decRepr (n : Nat) : String := ⟨decChars n⟩

theorem decChars_ne_nil (n : Nat) : decChars n ≠ [] := by
  unfold decChars
  split
  · simp
  · simp

/-- Every character produced by `decChars` is a decimal digit. -/
theorem decChars_digits (n : Nat) : ∀ c ∈ decChars n, 48 ≤ c.toNat ∧ c.toNat ≤ 57 := by
  induction n using Nat.strong_induction_on with
  | _ n ih =>
    unfold decChars
    split
    next h =>
      intro c hc
      simp only [List.mem_singleton] at hc
      subst hc
      interval_cases n <;> simp [digitChr]
    next h =>
      intro c hc
      rcases List.mem_append.mp hc with h1 | h2
      · exact ih (n / 10) (Nat.div_lt_self (by omega) (by omega)) c h1
      · simp only [List.mem_singleton] at h2
        subst h2
        have hm : n % 10 < 10 := Nat.mod_lt _ (by omega)
        interval_cases hx : n % 10 <;> simp [hx, digitChr]

/-- Numeric value of a big-endian digit-character list. -/
def digitsVal (l : List Char) : Nat := l.foldl (fun a c => 10 * a + (c.toNat - 48)) 0

theorem digitsVal_append_singleton (l : List Char) (c : Char) :
    digitsVal (l ++ [c]) = 10 * digitsVal l + (c.toNat - 48) := by
  simp [digitsVal, List.foldl_append]

theorem digitChr_val (d : Nat) (h : d < 10) : (digitChr d).toNat - 48 = d := by
  interval_cases d <;> simp [digitChr]

/-- `digitsVal` recovers the number from its decimal digits. -/
theorem digitsVal_decChars (n : Nat) : digitsVal (decChars n) = n := by
  induction n using Nat.strong_induction_on with
  | _ n ih =>
    unfold decChars
    split
    next h =>
      simpa [digitsVal] using digitChr_val n h
    next h =>
      rw [digitsVal_append_singleton, ih (n / 10) (Nat.div_lt_self (by omega) (by omega)),
        digitChr_val _ (Nat.mod_lt _ (by omega))]
      omega

theorem decChars_injective : Function.Injective decChars := by
  intro a b hab
  have ha := digitsVal_decChars a
  have hb := digitsVal_decChars b
  rw [hab] at ha
  omega

theorem decRepr_injective : Function.Injective decRepr := by
  intro a b hab
  exact decChars_injective (congrArg String.data hab)

/-- A string none of whose characters is the hyphen. -/
def dashFree (s : String) : Prop := Char.ofNat 45 ∉ s.data

instance (s : String) : Decidable (dashFree s) := by
  unfold dashFree; infer_instance

theorem dashFree_decRepr (n : Nat) : dashFree (decRepr n) := by
  intro hmem
  have := decChars_digits n _ hmem
  simp [Char.ofNat] at this

theorem dashFree_append {s t : String} (hs : dashFree s) (ht : dashFree t) :
    dashFree (s ++ t) := by
  unfold dashFree at *
  intro h
  rw [String.data_append] at h
  rcases List.mem_append.mp h with h1 | h2
  · exact hs h1
  · exact ht h2

/-- Splitting a character list at a unique separator character. -/
theorem sep_split {sep : Char} :
    ∀ (a c b d : List Char), sep ∉ a → sep ∉ c →
      a ++ sep :: b = c ++ sep :: d → a = c ∧ b = d := by
  intro a
  induction a with
  | nil =>
    intro c b d _ hc h
    cases c with
    | nil => simpa using h
    | cons x xs =>
      simp only [List.nil_append, List.cons_append, List.cons.injEq] at h
      exact absurd (h.1 ▸ List.mem_cons_self x xs) hc
  | cons x xs ih =>
    intro c b d ha hc h
    cases c with
    | nil =>
      simp only [List.cons_append, List.nil_append, List.cons.injEq] at h
      exact absurd (h.1 ▸ List.mem_cons_self x xs) ha
    | cons y ys =>
      simp only [List.cons_append, List.cons.injEq] at h
      obtain ⟨hxy, hrest⟩ := h
      have := ih ys b d (fun hm => ha (List.mem_cons_of_mem x hm))
        (fun hm => hc (hxy ▸ List.mem_cons_of_mem y hm)) hrest
      exact ⟨by simp [hxy, this.1], this.2⟩

/-- Two strings of shape `prefixPart ++ "-" ++ decRepr k` with dash-free
prefix parts are equal only when both components agree. -/
theorem dash_name_inj {a c : String} {k k' : Nat}
    (ha : dashFree a) (hc : dashFree c)
    (h : a ++ "-" ++ decRepr k = c ++ "-" ++ decRepr k') : a = c ∧ k = k' := by
  have hdata : a.data ++ Char.ofNat 45 :: (decRepr k).data
      = c.data ++ Char.ofNat 45 :: (decRepr k').data := by
    have := congrArg String.data h
    simpa [String.data_append, decRepr] using this
  have := sep_split a.data c.data (decRepr k).data (decRepr k').data ha hc hdata
  refine ⟨String.ext this.1, decChars_injective this.2⟩

/-- A dash-free string never equals a string containing the dash separator. -/
theorem dashFree_ne_dashed {a c t : String} (ha : dashFree a) :
    a ≠ c ++ "-" ++ t := by
  intro h
  apply ha
  rw [h]
  show Char.ofNat 45 ∈ (c ++ "-" ++ t).data
  simp [String.data_append]

/-! ## The random-source model -/

/-- Abstract source of pseudo-random draws, mirroring the primitives of
Python's `random` module that the generators use.  `σ` is the generator
state; each primitive returns the drawn value and the successor state. -/
structure RandGen (σ : Type) where
  /-- `random.random()`, a float in [0, 1). -/
  randomUnit : σ → ℚ × σ
  /-- `random.uniform(a, b)`, a float in [a, b]. -/
  uniform : ℚ → ℚ → σ → ℚ × σ
  /-- `random.randint(lo, hi)`, an integer in [lo, hi]. -/
  randint : ℤ → ℤ → σ → ℤ × σ
  /-- the index drawn by `random.choice` on a sequence of the given length. -/
  choiceIdx : Nat → σ → Nat × σ
  /-- `random.seed(k)`: the state after seeding with the integer `k`. -/
  reseed : ℤ → σ

/-- Documented ranges of the random primitives. -/
structure WF {σ : Type} (g : RandGen σ) : Prop where
  unit_lo : ∀ s, 0 ≤ (g.randomUnit s).1
  unit_hi : ∀ s, (g.randomUnit s).1 < 1
  uniform_lo : ∀ a b s, a ≤ b → a ≤ (g.uniform a b s).1
  uniform_hi : ∀ a b s, a ≤ b → (g.uniform a b s).1 ≤ b
  randint_lo : ∀ lo hi s, lo ≤ hi → lo ≤ (g.randint lo hi s).1
  randint_hi : ∀ lo hi s, lo ≤ hi → (g.randint lo hi s).1 ≤ hi

/-- A concrete random source driven by a finite queue of rationals
(used to instantiate theorems at explicit inputs).  Each primitive pops
one queue element (0 when exhausted) and clamps it into its legal range. -/
def qpop : List ℚ → ℚ × List ℚ
  | [] => (0, [])
  | q :: rest => (q, rest)

def clampUnit (q : ℚ) : ℚ := if 0 ≤ q ∧ q < 1 then q else 0

def listGen : RandGen (List ℚ) where
  randomUnit s := let (q, s') := qpop s; (clampUnit q, s')
  uniform a b s :=
    let (q, s') := qpop s
    (if a ≤ b then a + (b - a) * clampUnit q else a, s')
  randint lo hi s :=
    let (q, s') := qpop s
    (if lo ≤ hi then lo + ⌊q⌋ % (hi - lo + 1) else lo, s')
  choiceIdx _ s := let (q, s') := qpop s; (⌊q⌋.toNat, s')
  reseed _ := []

theorem clampUnit_mem (q : ℚ) : 0 ≤ clampUnit q ∧ clampUnit q < 1 := by
  unfold clampUnit
  split
  next h => exact h
  next h => norm_num

theorem listGen_wf : WF listGen := by
  constructor
  · intro s; exact (clampUnit_mem (qpop s).1).1
  · intro s; exact (clampUnit_mem (qpop s).1).2
  · intro a b s hab
    simp only [listGen]
    rw [if_pos hab]
    nlinarith [(clampUnit_mem (qpop s).1).1, (clampUnit_mem (qpop s).1).2]
  · intro a b s hab
    simp only [listGen]
    rw [if_pos hab]
    nlinarith [(clampUnit_mem (qpop s).1).1, (clampUnit_mem (qpop s).1).2]
  · intro lo hi s hab
    simp only [listGen]
    rw [if_pos hab]
    have := Int.emod_nonneg ⌊(qpop s).1⌋ (by omega : hi - lo + 1 ≠ 0)
    omega
  · intro lo hi s hab
    simp only [listGen]
    rw [if_pos hab]
    have := Int.emod_lt_of_pos ⌊(qpop s).1⌋ (by omega : 0 < hi - lo + 1)
    omega

/-! ## Least free disambiguation index

Python's `while name in existing: name = f"{base} ({idx})"; idx += 1`
(and the `#`-suffixed variant) terminates because the candidate names are
pairwise distinct while `existing` is finite; the result is the name at
the least free index. -/

theorem exists_not_mem_of_injective {f : ℕ → String} (hf : Function.Injective f)
    (l : List String) : ∃ k, f k ∉ l := by
  by_contra hall
  push_neg at hall
  have hnodup : ((List.range (l.length + 1)).map f).Nodup :=
    (List.nodup_range _).map hf
  have hsub : ((List.range (l.length + 1)).map f).toFinset ⊆ l.toFinset := by
    intro x hx
    simp only [List.mem_toFinset, List.mem_map, List.mem_range] at hx
    obtain ⟨k, _, rfl⟩ := hx
    exact List.mem_toFinset.mpr (hall k)
  have h1 : ((List.range (l.length + 1)).map f).toFinset.card = l.length + 1 := by
    rw [List.toFinset_card_of_nodup hnodup]
    simp
  have h2 := Finset.card_le_card hsub
  have h3 := List.toFinset_card_le l
  omega

/-- The least `k` such that `f k` is not already in `l` (requires the
candidate names `f k` to be pairwise distinct). -/
def leastFreeIdx (f : ℕ → String) (hf : Function.Injective f) (l : List String) : ℕ :=
  Nat.find (exists_not_mem_of_injective hf l)

theorem leastFreeIdx_not_mem (f : ℕ → String) (hf : Function.Injective f)
    (l : List String) : f (leastFreeIdx f hf l) ∉ l :=
  Nat.find_spec (exists_not_mem_of_injective hf l)

/-- Candidate name of a `while name in existing` suffix loop:
`base ++ sep ++ str(k) ++ close` (vessels use `" ("`/`")"`, persons `" #"`/`""`). -/
def suffixName (base sep close : String) (k : ℕ) : String :=
  base ++ sep ++ decRepr k ++ close

theorem suffixName_inj (base sep close : String) :
    Function.Injective (suffixName base sep close) := by
  intro k k' h
  have hdata := congrArg String.data h
  simp only [suffixName, String.data_append, decRepr, List.append_assoc] at hdata
  have h1 := List.append_cancel_left hdata
  have h2 := List.append_cancel_left h1
  exact decChars_injective (List.append_cancel_right h2)

theorem suffixName_shift_inj (base sep close : String) :
    Function.Injective (fun j => suffixName base sep close (2 + j)) := by
  intro a b h
  have := suffixName_inj base sep close h
  omega

/-- The collision-resolution loop shared by `make_vessel_name`
(`generate_vessels.py:134-140`, suffix `" (idx)"`) and `unique_name`
(`generate_passenger.py:138-143`, suffix `" #idx"`): if `base` collides,
append the suffix at the least index `idx ≥ 2` making the name free. -/
def disambiguate (base sep close : String) (l : List String) : String :=
  if base ∈ l then
    suffixName base sep close
      (2 + leastFreeIdx (fun j => suffixName base sep close (2 + j))
        (suffixName_shift_inj base sep close) l)
  else base

theorem disambiguate_not_mem (base sep close : String) (l : List String) :
    disambiguate base sep close l ∉ l := by
  unfold disambiguate
  split
  next =>
    exact leastFreeIdx_not_mem (fun j => suffixName base sep close (2 + j))
      (suffixName_shift_inj base sep close) l
  next h => exact h

/-! ## The weighted-choice accumulator loop

All four `weighted_choice` variants in the source
(`generate_planets.py:63-70`, `generate_vessels.py:104-112`,
`generate_passenger.py:112-120`, `generate_cargo.py:334-342`) and
`pick_planet_weighted` (`generate_log.py:137-153`) run the same loop:
accumulate weights and return the first value whose running total
reaches the drawn `r`; `none` means the loop fell through. -/
def wcFirst {α : Type} : List (α × ℚ) → ℚ → ℚ → Option α
  | [], _, _ => none
  | (v, w) :: rest, r, acc => if r ≤ acc + w then some v else wcFirst rest r (acc + w)

theorem wcFirst_mem {α : Type} :
    ∀ (l : List (α × ℚ)) (r acc : ℚ) (v : α),
      wcFirst l r acc = some v → ∃ p ∈ l, p.1 = v := by
  intro l
  induction l with
  | nil => intro r acc v h; simp [wcFirst] at h
  | cons p rest ih =>
    intro r acc v h
    rw [wcFirst] at h
    split at h
    next => exact ⟨p, List.mem_cons_self _ _, by injection h⟩
    next =>
      obtain ⟨q, hq, hqv⟩ := ih r (acc + p.2) v h
      exact ⟨q, List.mem_cons_of_mem _ hq, hqv⟩

/-- With nonnegative weights and a draw strictly above the running total
but within the overall total, the loop selects a pair of positive weight. -/
theorem wcFirst_pos {α : Type} :
    ∀ (l : List (α × ℚ)) (r acc : ℚ),
      (∀ p ∈ l, 0 ≤ p.2) → acc < r → r ≤ acc + (l.map (·.2)).sum →
      ∃ p ∈ l, wcFirst l r acc = some p.1 ∧ 0 < p.2 := by
  intro l
  induction l with
  | nil =>
    intro r acc _ hlt hle
    simp only [List.map_nil, List.sum_nil, add_zero] at hle
    exact absurd (lt_of_lt_of_le hlt hle) (lt_irrefl _)
  | cons p rest ih =>
    intro r acc hw hlt hle
    rw [wcFirst]
    by_cases hc : r ≤ acc + p.2
    · refine ⟨p, List.mem_cons_self _ _, ?_, by linarith⟩
      simp only [if_pos hc]
    · push_neg at hc
      simp only [List.map_cons, List.sum_cons] at hle
      obtain ⟨q, hq, hrun, hqpos⟩ :=
        ih r (acc + p.2) (fun x hx => hw x (List.mem_cons_of_mem _ hx)) hc (by linarith)
      refine ⟨q, List.mem_cons_of_mem _ hq, ?_, hqpos⟩
      simp only [if_neg (not_le.mpr hc)]
      exact hrun

/-- `random.choice(xs)` for a non-empty list: the drawn index, reduced
into range (the primitive's index is already in range for a well-formed
source; the reduction only makes the model total). -/
def pyChoice {σ α : Type} (g : RandGen σ) (xs : List α) (h : xs ≠ []) (s : σ) : α × σ :=
  let i := g.choiceIdx xs.length s
  (xs.get ⟨i.1 % xs.length, Nat.mod_lt _ (List.length_pos.mpr h)⟩, i.2)

theorem pyChoice_mem {σ α : Type} (g : RandGen σ) (xs : List α) (h : xs ≠ []) (s : σ) :
    (pyChoice g xs h s).1 ∈ xs := List.get_mem _ _ _

/-- Python `round(q)`: round half to even (banker's rounding). -/
def pyRound (q : ℚ) : ℤ :=
  let f := ⌊q⌋
  let r := q - f
  if r < 1/2 then f
  else if 1/2 < r then f + 1
  else if f % 2 = 0 then f else f + 1

/-- Python `round(q, 3)`. -/
def pyRound3 (q : ℚ) : ℚ := (pyRound (q * 1000) : ℚ) / 1000

/-- Python `int(dt.timestamp())`: truncation toward zero. -/
def pyTrunc (q : ℚ) : ℤ := if 0 ≤ q then ⌊q⌋ else -⌊-q⌋

theorem pyTrunc_mono {a b : ℚ} (h : a ≤ b) : pyTrunc a ≤ pyTrunc b := by
  unfold pyTrunc
  split
  next ha =>
    rw [if_pos (le_trans ha h)]
    exact Int.floor_le_floor h
  next ha =>
    push_neg at ha
    split
    next hb =>
      have h1 : -⌊-a⌋ ≤ 0 := by
        have : (0 : ℚ) ≤ -a := by linarith
        have := Int.le_floor.mpr (by exact_mod_cast this : ((0 : ℤ) : ℚ) ≤ -a)
        omega
      have h2 : (0 : ℤ) ≤ ⌊b⌋ := Int.le_floor.mpr (by exact_mod_cast hb)
      omega
    next hb =>
      have := Int.floor_le_floor (by linarith : -b ≤ -a)
      omega

/-- The state used by a generator after its optional `random.seed(seed)`
call: reseeded when an explicit seed is given, the ambient state otherwise. -/
def seedState {σ : Type} (g : RandGen σ) (seed : Option ℤ) (s : σ) : σ :=
  match seed with
  | some k => g.reseed k
  | none => s

namespace Planets

/-- `STATUSES` table of `generate_planets.py`. -/
def STATUSES : List (String × ℚ) :=
  [("normal", 0.78), ("quarantine", 0.08), ("embargo", 0.06),
   ("restricted", 0.05), ("frontier", 0.03)]

def GREEK : List String :=
  ["Alpha", "Beta", "Gamma", "Delta", "Epsilon", "Zeta", "Eta", "Theta",
   "Iota", "Kappa", "Lambda", "Mu", "Nu", "Xi", "Omicron", "Pi", "Rho",
   "Sigma", "Tau", "Upsilon", "Phi", "Chi", "Psi", "Omega"]

def CONSTELLATIONS : List String :=
  ["Andromedae", "Aquilae", "Arcturi", "Bootis", "Cancri", "Cygni", "Draconis",
   "Eridani", "Hydrae", "Leonis", "Lyrae", "Pegasi", "Persei", "Scorpii",
   "Serpentis", "Tauri", "Ursae Majoris", "Ursae Minoris", "Virginis"]

def CATALOG_PREFIX : List String :=
  ["HD", "HIP", "Gliese", "Kepler", "KIC", "BD", "TOI", "WASP", "OGLE", "TRAPPIST"]

def MYTHIC : List String :=
  ["Aurelia", "Hyperion", "Erebus", "Nyx", "Icarus", "Orpheus", "Ariadne",
   "Talos", "Janus", "Morpheus", "Tethys", "Rhea", "Helios", "Athena",
   "Hermes", "Selene", "Nereid", "Gaia", "Astraea", "Eos"]

/-- `CITIES` (note the source lists "Hanoi" twice; kept verbatim). -/
def CITIES : List String :=
  ["Kyoto", "Liverpool", "Accra", "Valencia", "Kigali", "Reykjavik", "Odessa",
   "Quito", "Marseille", "Tunis", "Hanoi", "Lagos", "Auckland", "Perth",
   "Cork", "Zagreb", "Seville", "Osaka", "Cadiz", "Hanoi", "Danang", "Hue",
   "Tokyo", "Beijing", "Cairo", "Casablanca"]

def ROMAN : List String :=
  ["I", "II", "III", "IV", "V", "VI", "VII", "VIII", "IX", "X", "XI", "XII"]

/-- `list("bcdefgh")` used for catalogue suffix letters. -/
def LETTERS : List String := ["b", "c", "d", "e", "f", "g", "h"]

/-- `weighted_choice` of `generate_planets.py:63-70`: draws
`random.random()` and scans the cumulative weights; `pairs[-1][0]` is the
fallthrough default. -/
def weightedChoice {σ α : Type} (g : RandGen σ) (pairs : List (α × ℚ))
    (h : pairs ≠ []) (s : σ) : α × σ :=
  let r := g.randomUnit s
  ((wcFirst pairs r.1 0).getD (pairs.getLast h).1, r.2)

theorem STATUSES_ne : STATUSES ≠ [] := by unfold STATUSES; exact List.cons_ne_nil _ _

def pickStatus {σ : Type} (g : RandGen σ) (s : σ) : String × σ :=
  weightedChoice g STATUSES STATUSES_ne s

/-- `sample_mass` of `generate_planets.py:75-94`. -/
def sampleMass {σ : Type} (g : RandGen σ) (s : σ) : ℚ × σ :=
  let r := g.randomUnit s
  if r.1 < 0.05 then
    let m := g.uniform 0.05 0.30 r.2; (pyRound3 m.1, m.2)
  else if r.1 < 0.60 then
    let m := g.uniform 0.30 2.00 r.2; (pyRound3 m.1, m.2)
  else if r.1 < 0.85 then
    let m := g.uniform 2.00 10.00 r.2; (pyRound3 m.1, m.2)
  else if r.1 < 0.95 then
    let m := g.uniform 10.00 20.00 r.2; (pyRound3 m.1, m.2)
  else
    let m := g.uniform 50.0 318.0 r.2; (pyRound3 m.1, m.2)

theorem CATALOG_PREFIX_ne : CATALOG_PREFIX ≠ [] := by
  unfold CATALOG_PREFIX; exact List.cons_ne_nil _ _

theorem LETTERS_ne : LETTERS ≠ [] := by unfold LETTERS; exact List.cons_ne_nil _ _

theorem GREEK_ne : GREEK ≠ [] := by unfold GREEK; exact List.cons_ne_nil _ _

theorem CONSTELLATIONS_ne : CONSTELLATIONS ≠ [] := by
  unfold CONSTELLATIONS; exact List.cons_ne_nil _ _

theorem ROMAN_ne : ROMAN ≠ [] := by unfold ROMAN; exact List.cons_ne_nil _ _

theorem MYTHIC_ne : MYTHIC ≠ [] := by unfold MYTHIC; exact List.cons_ne_nil _ _

theorem CITIES_ne : CITIES ≠ [] := by unfold CITIES; exact List.cons_ne_nil _ _

/-- `name_catalogue` (`generate_planets.py:96-100`). -/
def nameCatalogue {σ : Type} (g : RandGen σ) (s : σ) : String × σ :=
  let p := pyChoice g CATALOG_PREFIX CATALOG_PREFIX_ne s
  let n := g.randint 100 99999 p.2
  let c := pyChoice g LETTERS LETTERS_ne n.2
  (p.1 ++ " " ++ decRepr n.1.toNat ++ " " ++ c.1, c.2)

/-- `name_greek_constellation` (`generate_planets.py:102-103`). -/
def nameGreekConstellation {σ : Type} (g : RandGen σ) (s : σ) : String × σ :=
  let a := pyChoice g GREEK GREEK_ne s
  let b := pyChoice g CONSTELLATIONS CONSTELLATIONS_ne a.2
  let c := pyChoice g ROMAN ROMAN_ne b.2
  (a.1 ++ " " ++ b.1 ++ " " ++ c.1, c.2)

/-- `name_mythic_roman` (`generate_planets.py:105-106`). -/
def nameMythicRoman {σ : Type} (g : RandGen σ) (s : σ) : String × σ :=
  let a := pyChoice g MYTHIC MYTHIC_ne s
  let b := pyChoice g ROMAN ROMAN_ne a.2
  (a.1 ++ " " ++ b.1, b.2)

/-- `name_new_colony` (`generate_planets.py:108-109`). -/
def nameNewColony {σ : Type} (g : RandGen σ) (s : σ) : String × σ :=
  let a := pyChoice g CITIES CITIES_ne s
  ("New " ++ a.1, a.2)

/-- `generate_name` (`generate_planets.py:111-127`). -/
def generateName {σ : Type} (g : RandGen σ) (s : σ) : String × σ :=
  let r := g.randomUnit s
  if r.1 < 0.35 then nameCatalogue g r.2
  else if r.1 < 0.65 then nameGreekConstellation g r.2
  else if r.1 < 0.85 then nameMythicRoman g r.2
  else nameNewColony g r.2

/-- The bounded retry loop of `generate_planets.py:140-144` (`for _ in
range(100)`), returning the first fresh name, or `none` when the budget
is exhausted. -/
def tryNames {σ : Type} (g : RandGen σ) (seen : List String) :
    Nat → σ → Option String × σ
  | 0, s => (none, s)
  | fuel + 1, s =>
    let nm := generateName g s
    if nm.1 ∈ seen then tryNames g seen fuel nm.2 else (some nm.1, nm.2)

/-- Name selection for planet `pid` (`generate_planets.py:139-147`):
retry up to 100 times, adding the fresh name to `names_seen`; on
exhaustion fall back to `f"{name_catalogue()}-{pid}"` (not added to
`names_seen` by the source). -/
def planetName {σ : Type} (g : RandGen σ) (seen : List String) (pid : Nat) (s : σ) :
    String × List String × σ :=
  let t := tryNames g seen 100 s
  match t.1 with
  | some nm => (nm, nm :: seen, t.2)
  | none =>
    let cat := nameCatalogue g t.2
    (cat.1 ++ "-" ++ decRepr pid, seen, cat.2)

/-- A generated CelestialBody row (`id,name,mass,status`). -/
structure PRow where
  id : Nat
  name : String
  mass : ℚ
  status : String
deriving DecidableEq, Repr

/-- The generation loop of `generate_planets.py:138-157`, one iteration
per `pid`. -/
def planetsGo {σ : Type} (g : RandGen σ) :
    Nat → Nat → List String → σ → List PRow × σ
  | 0, _, _, s => ([], s)
  | n + 1, pid, seen, s =>
    let nm := planetName g seen pid s
    let m := sampleMass g nm.2.2
    let st := pickStatus g m.2
    let rest := planetsGo g n (pid + 1) nm.2.1 st.2
    (⟨pid, nm.1, m.1, st.1⟩ :: rest.1, rest.2)

/-- `generate_planets` (`generate_planets.py:129-157`, rows returned in
place of the CSV write). -/
def generatePlanets {σ : Type} (g : RandGen σ) (n : Nat) (seed : Option ℤ)
    (s : σ) : List PRow :=
  (planetsGo g n 1 [] (seedState g seed s)).1

end Planets

namespace Planets

theorem GREEK_dashFree : ∀ x ∈ GREEK, dashFree x := by decide

theorem CONSTELLATIONS_dashFree : ∀ x ∈ CONSTELLATIONS, dashFree x := by decide

theorem CATALOG_PREFIX_dashFree : ∀ x ∈ CATALOG_PREFIX, dashFree x := by decide

theorem MYTHIC_dashFree : ∀ x ∈ MYTHIC, dashFree x := by decide

theorem CITIES_dashFree : ∀ x ∈ CITIES, dashFree x := by decide

theorem ROMAN_dashFree : ∀ x ∈ ROMAN, dashFree x := by decide

theorem LETTERS_dashFree : ∀ x ∈ LETTERS, dashFree x := by decide

theorem space_dashFree : dashFree " " := by decide

theorem nameCatalogue_dashFree {σ : Type} (g : RandGen σ) (s : σ) :
    dashFree (nameCatalogue g s).1 := by
  unfold nameCatalogue
  refine dashFree_append (dashFree_append (dashFree_append (dashFree_append ?_
    space_dashFree) (dashFree_decRepr _)) space_dashFree) ?_
  · exact CATALOG_PREFIX_dashFree _ (pyChoice_mem _ _ _ _)
  · exact LETTERS_dashFree _ (pyChoice_mem _ _ _ _)

theorem nameGreekConstellation_dashFree {σ : Type} (g : RandGen σ) (s : σ) :
    dashFree (nameGreekConstellation g s).1 := by
  unfold nameGreekConstellation
  refine dashFree_append (dashFree_append (dashFree_append (dashFree_append ?_
    space_dashFree) ?_) space_dashFree) ?_
  · exact GREEK_dashFree _ (pyChoice_mem _ _ _ _)
  · exact CONSTELLATIONS_dashFree _ (pyChoice_mem _ _ _ _)
  · exact ROMAN_dashFree _ (pyChoice_mem _ _ _ _)

theorem nameMythicRoman_dashFree {σ : Type} (g : RandGen σ) (s : σ) :
    dashFree (nameMythicRoman g s).1 := by
  unfold nameMythicRoman
  refine dashFree_append (dashFree_append ?_ space_dashFree) ?_
  · exact MYTHIC_dashFree _ (pyChoice_mem _ _ _ _)
  · exact ROMAN_dashFree _ (pyChoice_mem _ _ _ _)

theorem nameNewColony_dashFree {σ : Type} (g : RandGen σ) (s : σ) :
    dashFree (nameNewColony g s).1 := by
  unfold nameNewColony
  refine dashFree_append (by decide) ?_
  exact CITIES_dashFree _ (pyChoice_mem _ _ _ _)

theorem generateName_dashFree {σ : Type} (g : RandGen σ) (s : σ) :
    dashFree (generateName g s).1 := by
  simp only [generateName]
  split
  next => exact nameCatalogue_dashFree g _
  next =>
    split
    next => exact nameGreekConstellation_dashFree g _
    next =>
      split
      next => exact nameMythicRoman_dashFree g _
      next => exact nameNewColony_dashFree g _

theorem tryNames_some {σ : Type} (g : RandGen σ) (seen : List String) :
    ∀ (fuel : Nat) (s : σ) (nm : String),
      (tryNames g seen fuel s).1 = some nm → nm ∉ seen ∧ dashFree nm := by
  intro fuel
  induction fuel with
  | zero => intro s nm h; simp [tryNames] at h
  | succ f ih =>
    intro s nm h
    simp only [tryNames] at h
    split at h
    next => exact ih _ nm h
    next hmem =>
      simp only at h
      injection h with h1
      exact h1 ▸ ⟨hmem, generateName_dashFree g s⟩

theorem planetName_cases {σ : Type} (g : RandGen σ) (seen : List String)
    (pid : Nat) (s : σ) :
    ∃ nm seen' s', planetName g seen pid s = (nm, seen', s') ∧
      ((nm ∉ seen ∧ dashFree nm ∧ seen' = nm :: seen) ∨
       (∃ cat, dashFree cat ∧ nm = cat ++ "-" ++ decRepr pid ∧ seen' = seen)) := by
  unfold planetName
  cases htry : (tryNames g seen 100 s).1 with
  | some nm =>
    obtain ⟨h1, h2⟩ := tryNames_some g seen 100 s nm htry
    exact ⟨nm, nm :: seen, (tryNames g seen 100 s).2,
      by simp only [htry], Or.inl ⟨h1, h2, rfl⟩⟩
  | none =>
    exact ⟨(nameCatalogue g (tryNames g seen 100 s).2).1 ++ "-" ++ decRepr pid, seen,
      (nameCatalogue g (tryNames g seen 100 s).2).2,
      by simp only [htry], Or.inr ⟨_, nameCatalogue_dashFree g _, rfl, rfl⟩⟩

theorem planetsGo_fresh {σ : Type} (g : RandGen σ) :
    ∀ (n pid : Nat) (seen : List String) (s : σ),
      (∀ x ∈ seen, dashFree x) →
      ∀ nm ∈ ((planetsGo g n pid seen s).1.map PRow.name), nm ∉ seen := by
  intro n
  induction n with
  | zero => intro pid seen s _ nm h; simp [planetsGo] at h
  | succ k ih =>
    intro pid seen s hseen nm hmem
    obtain ⟨nm0, seen', s', hpn, hcase⟩ := planetName_cases g seen pid s
    simp only [planetsGo, hpn, List.map_cons, List.mem_cons] at hmem
    rcases hmem with hhead | hrest
    · rcases hcase with ⟨hnot, _, _⟩ | ⟨cat, hcat, heq, _⟩
      · exact hhead ▸ hnot
      · intro hin
        exact dashFree_ne_dashed (hseen nm hin) (hhead.trans heq)
    · rcases hcase with ⟨hnot, hdf, hupd⟩ | ⟨cat, hcat, heq, hupd⟩
      · have hseen1 : ∀ x ∈ seen', dashFree x := by
          rw [hupd]
          intro x hx
          rcases List.mem_cons.mp hx with h1 | h1
          · exact h1 ▸ hdf
          · exact hseen x h1
        have h2 := ih (pid + 1) seen' _ hseen1 nm hrest
        rw [hupd] at h2
        exact fun hin => h2 (List.mem_cons_of_mem _ hin)
      · have h2 := ih (pid + 1) seen' _ (by rw [hupd]; exact hseen) nm hrest
        rw [hupd] at h2
        exact h2

theorem planetsGo_shape {σ : Type} (g : RandGen σ) :
    ∀ (n pid : Nat) (seen : List String) (s : σ),
      ∀ nm ∈ ((planetsGo g n pid seen s).1.map PRow.name),
        dashFree nm ∨ ∃ cat k, dashFree cat ∧ pid ≤ k ∧ nm = cat ++ "-" ++ decRepr k := by
  intro n
  induction n with
  | zero => intro pid seen s nm h; simp [planetsGo] at h
  | succ k ih =>
    intro pid seen s nm hmem
    obtain ⟨nm0, seen', s', hpn, hcase⟩ := planetName_cases g seen pid s
    simp only [planetsGo, hpn, List.map_cons, List.mem_cons] at hmem
    rcases hmem with hhead | hrest
    · rcases hcase with ⟨_, hdf, _⟩ | ⟨cat, hcat, heq, _⟩
      · exact Or.inl (hhead ▸ hdf)
      · exact Or.inr ⟨cat, pid, hcat, le_refl _, hhead.trans heq⟩
    · rcases ih (pid + 1) seen' _ nm hrest with h | ⟨cat, kk, hcat, hk, heq⟩
      · exact Or.inl h
      · exact Or.inr ⟨cat, kk, hcat, by omega, heq⟩

theorem planetsGo_names_nodup {σ : Type} (g : RandGen σ) :
    ∀ (n pid : Nat) (seen : List String) (s : σ),
      (∀ x ∈ seen, dashFree x) →
      ((planetsGo g n pid seen s).1.map PRow.name).Nodup := by
  intro n
  induction n with
  | zero => intro pid seen s _; simp [planetsGo]
  | succ k ih =>
    intro pid seen s hseen
    obtain ⟨nm0, seen', s', hpn, hcase⟩ := planetName_cases g seen pid s
    simp only [planetsGo, hpn, List.map_cons, List.nodup_cons]
    rcases hcase with ⟨hnot, hdf, hupd⟩ | ⟨cat, hcat, heq, hupd⟩
    · have hseen1 : ∀ x ∈ seen', dashFree x := by
        rw [hupd]
        intro x hx
        rcases List.mem_cons.mp hx with h1 | h1
        · exact h1 ▸ hdf
        · exact hseen x h1
      constructor
      · intro hin
        have h2 := planetsGo_fresh g k (pid + 1) _ _ hseen1 _ hin
        rw [hupd] at h2
        exact h2 (List.mem_cons_self _ _)
      · exact ih (pid + 1) _ _ hseen1
    · constructor
      · intro hin
        rcases planetsGo_shape g k (pid + 1) _ _ _ hin with hdf2 | ⟨cat2, k2, hcat2, hk2, heq2⟩
        · exact dashFree_ne_dashed hdf2 heq
        · have hcomb : cat ++ "-" ++ decRepr pid = cat2 ++ "-" ++ decRepr k2 :=
            heq.symm.trans heq2
          have := (dash_name_inj hcat hcat2 hcomb).2
          omega
      · exact ih (pid + 1) _ _ (by rw [hupd]; exact hseen)

theorem generatePlanets_names_nodup {σ : Type} (g : RandGen σ) (n : Nat)
    (seed : Option ℤ) (s : σ) :
    ((generatePlanets g n seed s).map PRow.name).Nodup := by
  unfold generatePlanets
  exact planetsGo_names_nodup g n 1 [] _ (by intro x hx; simp at hx)

end Planets

/-- A loaded CelestialBody row as consumed by the downstream generators
(`load_planets` keeps only `id` and normalized `status`). -/
structure Planet where
  id : ℤ
  status : String
deriving DecidableEq, Repr

namespace Vessels

/-- `STATUS_FLAG_WEIGHTS.get(status, 0.1)` of `generate_vessels.py:29-35,115`. -/
def statusFlagWeight (st : String) : ℚ :=
  if st = "normal" then 1.00
  else if st = "frontier" then 0.25
  else if st = "restricted" then 0.20
  else if st = "quarantine" then 0.10
  else if st = "embargo" then 0.08
  else 0.1

def VESSEL_TYPES : List (String × ℚ) :=
  [("bulk freighter", 0.18), ("container hauler", 0.16), ("tanker", 0.12),
   ("passenger liner", 0.08), ("interstellar shuttle", 0.08), ("fast courier", 0.08),
   ("research vessel", 0.06), ("mining barge", 0.06), ("patrol corvette", 0.05),
   ("private yacht", 0.05), ("medical relief ship", 0.04), ("spice clipper", 0.04)]

def PREFIXES : List String := ["SS", "MV", "CSV", "TSS", "HSS", "RV", "BCV"]

def ADJECTIVES : List String :=
  ["Azure", "Crimson", "Obsidian", "Amber", "Silent", "Vigilant", "Radiant",
   "Stellar", "Drifting", "Iron", "Golden", "Silver", "Nebular", "Quantum",
   "Luminous", "Wayfarer", "Eclipse", "Solar", "Aether", "Celestial", "Cutty"]

def NOUNS : List String :=
  ["Nomad", "Kite", "Dawn", "Paradox", "Harbinger", "Serpent", "Pioneer",
   "Voyager", "Courier", "Beacon", "Comet", "Pilgrim", "Anchor", "Caravel",
   "Skylark", "Prospector", "Mariner", "Venture", "Tempest", "Sparrow", "Sark"]

def ROMAN : List String := ["", " II", " III", " IV", " V"]

/-- `FIRST_NAMES` of `generate_vessels.py:68-74`.  The source has a
missing comma between `"Rosa"` and `"Will"`, so Python concatenates the
adjacent literals into the single entry "RosaWill"; kept verbatim. -/
def FIRST_NAMES : List String :=
  ["Alex", "Samira", "Diego", "Mei", "Noah", "Aisha", "Karim", "Sofia", "Luca",
   "Yara", "Tariq", "Nina", "Jonas", "Ravi", "Leila", "Kaito", "Marta", "Omar",
   "Ibrahim", "Priya", "Ines", "Serge", "Dara", "Han", "Arman", "Zoe", "Nikolai",
   "Tess", "Amir", "Chioma", "Eli", "Mina", "Mateo", "Anika", "Farid", "RosaWill"]

/-- `SURNAMES` of `generate_vessels.py:75-81`; the missing comma between
`"Li"` and `"Nguyen"` likewise produces the single entry "LiNguyen". -/
def SURNAMES : List String :=
  ["Okoye", "Fernandez", "Singh", "Johansson", "Khan", "Miller", "Garcia", "Chen",
   "Haddad", "Nakamura", "Silva", "Novak", "Rossi", "Patel", "Dubois", "Iversen",
   "Kim", "Hussein", "Santos", "Petrova", "Kowalski", "Hernandez", "Abebe",
   "Yamamoto", "Adebayo", "Popov", "Carter", "Moreau", "Gonzalez", "LiNguyen",
   "Holland", "Nguyen Le", "Tram", "Ho"]

/-- `weighted_choice(items, weights)` of `generate_vessels.py:104-112`:
draws `random.uniform(0, total)`, scans the zipped cumulative weights,
falls back to `items[-1]`. -/
def weightedChoice {σ α : Type} (g : RandGen σ) (items : List α) (weights : List ℚ)
    (h : items ≠ []) (s : σ) : α × σ :=
  let total := weights.sum
  let r := g.uniform 0 total s
  ((wcFirst (items.zip weights) r.1 0).getD (items.getLast h), r.2)

theorem weightedChoice_mem {σ α : Type} (g : RandGen σ) (items : List α)
    (weights : List ℚ) (h : items ≠ []) (s : σ) :
    (weightedChoice g items weights h s).1 ∈ items := by
  unfold weightedChoice
  cases hwc : wcFirst (items.zip weights) (g.uniform 0 weights.sum s).1 0 with
  | some v =>
    simp only [hwc, Option.getD_some]
    obtain ⟨p, hp, hpv⟩ := wcFirst_mem _ _ _ _ hwc
    exact hpv ▸ (List.of_mem_zip hp).1
  | none =>
    simp only [hwc, Option.getD_none]
    exact List.getLast_mem h

/-- `pick_flag` (`generate_vessels.py:114-117`). -/
def pickFlag {σ : Type} (g : RandGen σ) (planets : List Planet)
    (h : planets ≠ []) (s : σ) : ℤ × σ :=
  let c := weightedChoice g planets (planets.map (fun p => statusFlagWeight p.status)) h s
  (c.1.id, c.2)

theorem pickFlag_mem {σ : Type} (g : RandGen σ) (planets : List Planet)
    (h : planets ≠ []) (s : σ) :
    (pickFlag g planets h s).1 ∈ planets.map Planet.id := by
  unfold pickFlag
  exact List.mem_map_of_mem _ (weightedChoice_mem g planets _ h s)

theorem VESSEL_TYPES_names_ne : VESSEL_TYPES.map Prod.fst ≠ [] := by
  unfold VESSEL_TYPES; simp

/-- `pick_type` (`generate_vessels.py:119-120`). -/
def pickType {σ : Type} (g : RandGen σ) (s : σ) : String × σ :=
  weightedChoice g (VESSEL_TYPES.map Prod.fst) (VESSEL_TYPES.map Prod.snd)
    VESSEL_TYPES_names_ne s

theorem PREFIXES_ne : PREFIXES ≠ [] := by unfold PREFIXES; exact List.cons_ne_nil _ _

theorem ADJECTIVES_ne : ADJECTIVES ≠ [] := by unfold ADJECTIVES; exact List.cons_ne_nil _ _

theorem NOUNS_ne : NOUNS ≠ [] := by unfold NOUNS; exact List.cons_ne_nil _ _

theorem vROMAN_ne : ROMAN ≠ [] := by unfold ROMAN; exact List.cons_ne_nil _ _

theorem vFIRST_NAMES_ne : FIRST_NAMES ≠ [] := by
  unfold FIRST_NAMES; exact List.cons_ne_nil _ _

theorem vSURNAMES_ne : SURNAMES ≠ [] := by unfold SURNAMES; exact List.cons_ne_nil _ _

/-- The three name patterns of `make_vessel_name`
(`generate_vessels.py:122-131`), before collision resolution. -/
def vesselBaseName {σ : Type} (g : RandGen σ) (s : σ) : String × σ :=
  let p := g.randomUnit s
  if p.1 < 0.45 then
    let a := pyChoice g PREFIXES PREFIXES_ne p.2
    let b := pyChoice g ADJECTIVES ADJECTIVES_ne a.2
    let c := pyChoice g NOUNS NOUNS_ne b.2
    let d := pyChoice g ROMAN vROMAN_ne c.2
    (a.1 ++ " " ++ b.1 ++ " " ++ c.1 ++ d.1, d.2)
  else if p.1 < 0.80 then
    let b := pyChoice g ADJECTIVES ADJECTIVES_ne p.2
    let c := pyChoice g NOUNS NOUNS_ne b.2
    let d := pyChoice g ROMAN vROMAN_ne c.2
    (b.1 ++ " " ++ c.1 ++ d.1, d.2)
  else
    let a := pyChoice g PREFIXES PREFIXES_ne p.2
    let n := g.randint 100 9999 a.2
    let c := pyChoice g NOUNS NOUNS_ne n.2
    (a.1 ++ "-" ++ decRepr n.1.toNat ++ " " ++ c.1, c.2)

/-- `make_vessel_name` (`generate_vessels.py:122-142`): draw a pattern,
then resolve collisions with the `" (idx)"` suffix loop and add the
result to `existing`. -/
def makeVesselName {σ : Type} (g : RandGen σ) (existing : List String) (s : σ) :
    String × List String × σ :=
  let b := vesselBaseName g s
  let nm := disambiguate b.1 " (" ")" existing
  (nm, nm :: existing, b.2)

/-- `make_captain_name` (`generate_vessels.py:144-145`). -/
def makeCaptainName {σ : Type} (g : RandGen σ) (s : σ) : String × σ :=
  let a := pyChoice g FIRST_NAMES vFIRST_NAMES_ne s
  let b := pyChoice g SURNAMES vSURNAMES_ne a.2
  (a.1 ++ " " ++ b.1, b.2)

/-- A generated Vessel row (`id,name,captain,type,flag`). -/
structure VRow where
  id : Nat
  name : String
  captain : String
  vtype : String
  flag : ℤ
deriving DecidableEq, Repr

/-- The generation loop of `generate_vessels.py:155-167`. -/
def vesselsGo {σ : Type} (g : RandGen σ) (planets : List Planet) (hp : planets ≠ []) :
    Nat → Nat → List String → σ → List VRow × σ
  | 0, _, _, s => ([], s)
  | n + 1, vid, seen, s =>
    let ty := pickType g s
    let nm := makeVesselName g seen ty.2
    let cap := makeCaptainName g nm.2.2
    let fl := pickFlag g planets hp cap.2
    let rest := vesselsGo g planets hp n (vid + 1) nm.2.1 fl.2
    (⟨vid, nm.1, cap.1, ty.1, fl.1⟩ :: rest.1, rest.2)

/-- `generate_vessels` (`generate_vessels.py:147-167`). -/
def generateVessels {σ : Type} (g : RandGen σ) (count : Nat) (planets : List Planet)
    (hp : planets ≠ []) (seed : Option ℤ) (s : σ) : List VRow :=
  (vesselsGo g planets hp count 1 [] (seedState g seed s)).1

theorem vesselsGo_fresh {σ : Type} (g : RandGen σ) (planets : List Planet)
    (hp : planets ≠ []) :
    ∀ (n vid : Nat) (seen : List String) (s : σ),
      ∀ nm ∈ ((vesselsGo g planets hp n vid seen s).1.map VRow.name), nm ∉ seen := by
  intro n
  induction n with
  | zero => intro vid seen s nm h; simp [vesselsGo] at h
  | succ k ih =>
    intro vid seen s nm hmem
    simp only [vesselsGo, makeVesselName, List.map_cons, List.mem_cons] at hmem
    rcases hmem with hhead | hrest
    · exact hhead ▸ disambiguate_not_mem _ _ _ _
    · intro hin
      exact ih (vid + 1) _ _ nm hrest (List.mem_cons_of_mem _ hin)

theorem vesselsGo_names_nodup {σ : Type} (g : RandGen σ) (planets : List Planet)
    (hp : planets ≠ []) :
    ∀ (n vid : Nat) (seen : List String) (s : σ),
      ((vesselsGo g planets hp n vid seen s).1.map VRow.name).Nodup := by
  intro n
  induction n with
  | zero => intro vid seen s; simp [vesselsGo]
  | succ k ih =>
    intro vid seen s
    simp only [vesselsGo, makeVesselName, List.map_cons, List.nodup_cons]
    constructor
    · intro hin
      exact vesselsGo_fresh g planets hp k (vid + 1) _ _ _ hin (List.mem_cons_self _ _)
    · exact ih (vid + 1) _ _

theorem generateVessels_names_nodup {σ : Type} (g : RandGen σ) (count : Nat)
    (planets : List Planet) (hp : planets ≠ []) (seed : Option ℤ) (s : σ) :
    ((generateVessels g count planets hp seed s).map VRow.name).Nodup := by
  unfold generateVessels
  exact vesselsGo_names_nodup g planets hp count 1 [] _

theorem vesselsGo_flags {σ : Type} (g : RandGen σ) (planets : List Planet)
    (hp : planets ≠ []) :
    ∀ (n vid : Nat) (seen : List String) (s : σ),
      ∀ row ∈ (vesselsGo g planets hp n vid seen s).1,
        row.flag ∈ planets.map Planet.id := by
  intro n
  induction n with
  | zero => intro vid seen s row h; simp [vesselsGo] at h
  | succ k ih =>
    intro vid seen s row hmem
    simp only [vesselsGo, List.mem_cons] at hmem
    rcases hmem with hhead | hrest
    · rw [hhead]
      exact pickFlag_mem g planets hp _
    · exact ih (vid + 1) _ _ row hrest

theorem generateVessels_flags {σ : Type} (g : RandGen σ) (count : Nat)
    (planets : List Planet) (hp : planets ≠ []) (seed : Option ℤ) (s : σ) :
    ∀ row ∈ generateVessels g count planets hp seed s,
      row.flag ∈ planets.map Planet.id := by
  unfold generateVessels
  exact vesselsGo_flags g planets hp count 1 [] _

end Vessels

/-- A loaded Vessel row as consumed by the passenger/cargo/log generators
(`load_vessels`): integer `id` and `flag`, strings for name, captain and
the (lower-cased) type text. -/
structure VesselIn where
  id : ℤ
  name : String
  captain : String
  vtype : String
  flag : ℤ
deriving DecidableEq, Repr

theorem map_ne_nil {α β : Type} (f : α → β) {l : List α} (h : l ≠ []) :
    l.map f ≠ [] := by
  cases l with
  | nil => exact absurd rfl h
  | cons x xs => simp

namespace Passenger

/-- Head-count profile of `TYPE_PROFILE` (`generate_passenger.py:32-45`). -/
structure HeadProfile where
  crewLo : ℤ
  crewHi : ℤ
  paxLo : ℤ
  paxHi : ℤ
deriving DecidableEq, Repr

def TYPE_PROFILE : List (String × HeadProfile) :=
  [("passenger liner", ⟨20, 40, 120, 400⟩),
   ("interstellar shuttle", ⟨4, 10, 20, 80⟩),
   ("private yacht", ⟨4, 12, 0, 8⟩),
   ("bulk freighter", ⟨8, 20, 0, 6⟩),
   ("container hauler", ⟨8, 22, 0, 8⟩),
   ("tanker", ⟨6, 18, 0, 4⟩),
   ("fast courier", ⟨2, 6, 0, 4⟩),
   ("research vessel", ⟨12, 40, 0, 15⟩),
   ("mining barge", ⟨20, 60, 0, 10⟩),
   ("patrol corvette", ⟨15, 30, 0, 2⟩),
   ("medical relief ship", ⟨18, 60, 10, 120⟩),
   ("customs cutter", ⟨10, 20, 0, 2⟩)]

/-- `TYPE_PROFILE.get(vtype, {"crew": (6, 18), "passenger": (0, 6)})`
(`generate_passenger.py:163`): exact key lookup with default. -/
def typeProfileGet (ty : String) : HeadProfile :=
  ((TYPE_PROFILE.find? (fun p => p.1 == ty)).map Prod.snd).getD ⟨6, 18, 0, 6⟩

/-- `NATIONALITY_WEIGHTS.get(status, 0.3)` (`generate_passenger.py:48-54,124`). -/
def nationalityWeight (st : String) : ℚ :=
  if st = "normal" then 1.0
  else if st = "frontier" then 0.7
  else if st = "restricted" then 0.5
  else if st = "quarantine" then 0.25
  else if st = "embargo" then 0.2
  else 0.3

def CREW_FLAG_PROB : ℚ := 0.55

def FIRST_NAMES : List String :=
  ["Alex", "Samira", "Diego", "Mei", "Noah", "Aisha", "Karim", "Sofia", "Luca",
   "Yara", "Tariq", "Nina", "Jonas", "Ravi", "Leila", "Kaito", "Marta", "Omar",
   "Ibrahim", "Priya", "Ines", "Serge", "Dara", "Hana", "Arman", "Zoe", "Nikolai",
   "Tess", "Amir", "Chioma", "Eli", "Mina", "Mateo", "Anika", "Farid", "Rosa",
   "Ethan", "Layla", "Hiro", "Amina", "Thiago", "Noura", "Jae", "Saanvi", "Ada"]

/-- The surname "O'Neill" (built from a character code to keep the file
free of bare apostrophes inside string literals). -/
def oneillName : String := "O" ++ String.singleton (Char.ofNat 39) ++ "Neill"

def SURNAMES : List String :=
  ["Okoye", "Fernandez", "Singh", "Johansson", "Khan", "Miller", "Garcia", "Chen",
   "Haddad", "Nakamura", "Silva", "Novak", "Rossi", "Patel", "Dubois", "Iversen",
   "Kim", "Hussein", "Santos", "Petrova", "Kowalski", "Hernandez", "Abebe",
   "Yamamoto", "Adebayo", "Popov", "Carter", "Moreau", "Gonzalez", "Li", oneillName,
   "Martinez", "Costa", "Becker", "Ivanov", "Abdullah", "Laurent", "Bauer"]

theorem pFIRST_NAMES_ne : FIRST_NAMES ≠ [] := by
  unfold FIRST_NAMES; exact List.cons_ne_nil _ _

theorem pSURNAMES_ne : SURNAMES ≠ [] := by unfold SURNAMES; exact List.cons_ne_nil _ _

/-- `pick_planet_id` (`generate_passenger.py:122-125`); the
`weighted_choice` it calls (`generate_passenger.py:112-120`) is textually
identical to the one in `generate_vessels.py`, so the same embedding is
used. -/
def pickPlanetId {σ : Type} (g : RandGen σ) (planets : List Planet)
    (hp : planets ≠ []) (s : σ) : ℤ × σ :=
  Vessels.weightedChoice g (planets.map Planet.id)
    (planets.map (fun p => nationalityWeight p.status))
    (map_ne_nil _ hp) s

theorem pickPlanetId_mem {σ : Type} (g : RandGen σ) (planets : List Planet)
    (hp : planets ≠ []) (s : σ) :
    (pickPlanetId g planets hp s).1 ∈ planets.map Planet.id :=
  Vessels.weightedChoice_mem g _ _ _ s

/-- One random `f"{first} {last}"` draw (`generate_passenger.py:133,139`). -/
def pickPersonName {σ : Type} (g : RandGen σ) (s : σ) : String × σ :=
  let a := pyChoice g FIRST_NAMES pFIRST_NAMES_ne s
  let b := pyChoice g SURNAMES pSURNAMES_ne a.2
  (a.1 ++ " " ++ b.1, b.2)

/-- The `for _ in range(50)` retry loop of `generate_passenger.py:132-136`. -/
def tryNames {σ : Type} (g : RandGen σ) (existing : List String) :
    Nat → σ → Option String × σ
  | 0, s => (none, s)
  | fuel + 1, s =>
    let nm := pickPersonName g s
    if nm.1 ∈ existing then tryNames g existing fuel nm.2 else (some nm.1, nm.2)

/-- Python truthiness of the `preferred` argument: `None` and the empty
string are falsy (`if preferred and ...`, `base = preferred or ...`). -/
def truthy : Option String → Option String
  | some p => if p = "" then none else some p
  | none => none

/-- The retry-then-suffix tail of `unique_name`
(`generate_passenger.py:131-145`): 50 fresh draws, then suffix
`" #idx"` onto `preferred` (if truthy) or onto one more fresh draw. -/
def afterRetry {σ : Type} (g : RandGen σ) (existing : List String)
    (basePref : Option String) (s : σ) : String × List String × σ :=
  let t := tryNames g existing 50 s
  match t.1 with
  | some nm => (nm, nm :: existing, t.2)
  | none =>
    match basePref with
    | some p =>
      let nm := disambiguate p " #" "" existing
      (nm, nm :: existing, t.2)
    | none =>
      let b := pickPersonName g t.2
      let nm := disambiguate b.1 " #" "" existing
      (nm, nm :: existing, b.2)

/-- `unique_name` (`generate_passenger.py:127-145`). -/
def uniqueName {σ : Type} (g : RandGen σ) (existing : List String)
    (preferred : Option String) (s : σ) : String × List String × σ :=
  match truthy preferred with
  | some p =>
    if p ∈ existing then afterRetry g existing (some p) s
    else (p, p :: existing, s)
  | none => afterRetry g existing none s

/-- `scaled_randint` (`generate_passenger.py:147-150`). -/
def scaledRandint {σ : Type} (g : RandGen σ) (lo hi : ℤ) (scale : ℚ) (s : σ) : ℤ × σ :=
  let lo' := max 0 (pyRound (lo * scale))
  let hi' := max lo' (pyRound (hi * scale))
  g.randint lo' hi' s

/-- A generated Person row (`name,type,nationality,vessel`; the CSV
column `type` holds the role). -/
structure PersonRow where
  name : String
  role : String
  nationality : ℤ
  vessel : ℤ
deriving DecidableEq, Repr

/-- The crew loop of `generate_passenger.py:176-188`. -/
def crewLoop {σ : Type} (g : RandGen σ) (planets : List Planet) (hp : planets ≠ [])
    (v : VesselIn) : Nat → List String → σ → List PersonRow × List String × σ
  | 0, existing, s => ([], existing, s)
  | n + 1, existing, s =>
    let u := uniqueName g existing none s
    let r := g.randomUnit u.2.2
    let nat := if r.1 < CREW_FLAG_PROB then (v.flag, r.2) else pickPlanetId g planets hp r.2
    let rest := crewLoop g planets hp v n u.2.1 nat.2
    (⟨u.1, "crew", nat.1, v.id⟩ :: rest.1, rest.2)

/-- The passenger loop of `generate_passenger.py:191-200`. -/
def paxLoop {σ : Type} (g : RandGen σ) (planets : List Planet) (hp : planets ≠ [])
    (v : VesselIn) : Nat → List String → σ → List PersonRow × List String × σ
  | 0, existing, s => ([], existing, s)
  | n + 1, existing, s =>
    let u := uniqueName g existing none s
    let nat := pickPlanetId g planets hp u.2.2
    let rest := paxLoop g planets hp v n u.2.1 nat.2
    (⟨u.1, "passenger", nat.1, v.id⟩ :: rest.1, rest.2)

/-- One vessel's captain + crew + passengers
(`generate_passenger.py:161-200`). -/
def personsForVessel {σ : Type} (g : RandGen σ) (planets : List Planet)
    (hp : planets ≠ []) (v : VesselIn) (scale : ℚ) (existing : List String) (s : σ) :
    List PersonRow × List String × σ :=
  let profile := typeProfileGet v.vtype
  let cap := uniqueName g existing (some v.captain) s
  let cn := scaledRandint g profile.crewLo profile.crewHi scale cap.2.2
  let crew := crewLoop g planets hp v cn.1.toNat cap.2.1 cn.2
  let pn := scaledRandint g profile.paxLo profile.paxHi scale crew.2.2
  let pax := paxLoop g planets hp v pn.1.toNat crew.2.1 pn.2
  (⟨cap.1, "captain", v.flag, v.id⟩ :: (crew.1 ++ pax.1), pax.2.1, pax.2.2)

/-- The per-vessel loop of `generate_passengers`
(`generate_passenger.py:152-200`). -/
def passengersGo {σ : Type} (g : RandGen σ) (planets : List Planet)
    (hp : planets ≠ []) (scale : ℚ) :
    List VesselIn → List String → σ → List PersonRow × σ
  | [], _, s => ([], s)
  | v :: rest, existing, s =>
    let blk := personsForVessel g planets hp v scale existing s
    let r := passengersGo g planets hp scale rest blk.2.1 blk.2.2
    (blk.1 ++ r.1, r.2)

/-- `generate_passengers` (`generate_passenger.py:152-205`, rows returned
in place of the CSV write; the name set starts empty). -/
def generatePassengers {σ : Type} (g : RandGen σ) (planets : List Planet)
    (hp : planets ≠ []) (vessels : List VesselIn) (scale : ℚ) (s : σ) :
    List PersonRow :=
  (passengersGo g planets hp scale vessels [] s).1

end Passenger

namespace Passenger

theorem pTryNames_some {σ : Type} (g : RandGen σ) (existing : List String) :
    ∀ (fuel : Nat) (s : σ) (nm : String),
      (tryNames g existing fuel s).1 = some nm → nm ∉ existing := by
  intro fuel
  induction fuel with
  | zero => intro s nm h; simp [tryNames] at h
  | succ f ih =>
    intro s nm h
    simp only [tryNames] at h
    split at h
    next => exact ih _ nm h
    next hmem =>
      simp only at h
      injection h with h1
      exact h1 ▸ hmem

theorem afterRetry_spec {σ : Type} (g : RandGen σ) (existing : List String)
    (basePref : Option String) (s : σ) :
    ∃ nm s', afterRetry g existing basePref s = (nm, nm :: existing, s') ∧
      nm ∉ existing := by
  unfold afterRetry
  cases ht : (tryNames g existing 50 s).1 with
  | some nm =>
    exact ⟨nm, (tryNames g existing 50 s).2, by simp only [ht],
      pTryNames_some g existing 50 s nm ht⟩
  | none =>
    cases basePref with
    | some p =>
      exact ⟨disambiguate p " #" "" existing, (tryNames g existing 50 s).2,
        by simp only [ht], disambiguate_not_mem _ _ _ _⟩
    | none =>
      exact ⟨disambiguate (pickPersonName g (tryNames g existing 50 s).2).1 " #" "" existing,
        (pickPersonName g (tryNames g existing 50 s).2).2,
        by simp only [ht], disambiguate_not_mem _ _ _ _⟩

theorem uniqueName_spec {σ : Type} (g : RandGen σ) (existing : List String)
    (preferred : Option String) (s : σ) :
    ∃ nm s', uniqueName g existing preferred s = (nm, nm :: existing, s') ∧
      nm ∉ existing := by
  unfold uniqueName
  cases htr : truthy preferred with
  | some p =>
    by_cases hmem : p ∈ existing
    · obtain ⟨nm, s', heq, hnot⟩ := afterRetry_spec g existing (some p) s
      exact ⟨nm, s', by simp only [htr, if_pos hmem]; exact heq, hnot⟩
    · exact ⟨p, s, by simp only [htr, if_neg hmem], hmem⟩
  | none =>
    obtain ⟨nm, s', heq, hnot⟩ := afterRetry_spec g existing none s
    exact ⟨nm, s', by simp only [htr]; exact heq, hnot⟩

theorem uniqueName_preferred {σ : Type} (g : RandGen σ) (existing : List String)
    (p : String) (s : σ) (hp : p ≠ "") (hmem : p ∉ existing) :
    uniqueName g existing (some p) s = (p, p :: existing, s) := by
  unfold uniqueName
  have htr : truthy (some p) = some p := by simp [truthy, hp]
  simp only [htr, if_neg hmem]

theorem crewLoop_spec {σ : Type} (g : RandGen σ) (planets : List Planet)
    (hp : planets ≠ []) (v : VesselIn) :
    ∀ (n : Nat) (existing : List String) (s : σ),
      (∀ x, x ∈ (crewLoop g planets hp v n existing s).2.1 ↔
        x ∈ ((crewLoop g planets hp v n existing s).1.map PersonRow.name) ∨ x ∈ existing) ∧
      (∀ nm ∈ ((crewLoop g planets hp v n existing s).1.map PersonRow.name), nm ∉ existing) ∧
      ((crewLoop g planets hp v n existing s).1.map PersonRow.name).Nodup ∧
      (∀ r ∈ (crewLoop g planets hp v n existing s).1,
        r.role = "crew" ∧ r.vessel = v.id ∧
        (r.nationality = v.flag ∨ r.nationality ∈ planets.map Planet.id)) := by
  intro n
  induction n with
  | zero =>
    intro existing s
    refine ⟨fun x => by simp [crewLoop], ?_, by simp [crewLoop], ?_⟩
    · intro nm h; simp [crewLoop] at h
    · intro r h; simp [crewLoop] at h
  | succ k ih =>
    intro existing s
    obtain ⟨nm, s', hu, hnot⟩ := uniqueName_spec g existing none s
    simp only [crewLoop, hu, List.map_cons, List.mem_cons, List.nodup_cons]
    obtain ⟨ihset, ihfresh, ihnodup, ihrows⟩ := ih (nm :: existing) _
    refine ⟨?_, ?_, ?_, ?_⟩
    · intro x
      rw [ihset x]
      constructor
      · rintro (h1 | h2)
        · exact Or.inl (Or.inr h1)
        · rcases List.mem_cons.mp h2 with h3 | h3
          · exact Or.inl (Or.inl h3)
          · exact Or.inr h3
      · rintro ((h1 | h1) | h2)
        · exact Or.inr (h1 ▸ List.mem_cons_self _ _)
        · exact Or.inl h1
        · exact Or.inr (List.mem_cons_of_mem _ h2)
    · intro x hx
      rcases hx with h1 | h1
      · exact h1 ▸ hnot
      · intro hin
        exact ihfresh x h1 (List.mem_cons_of_mem _ hin)
    · refine ⟨?_, ihnodup⟩
      intro hin
      exact ihfresh nm hin (List.mem_cons_self _ _)
    · intro r hr
      rcases hr with h1 | h1
      · refine h1 ▸ ⟨rfl, rfl, ?_⟩
        split
        next => exact Or.inl rfl
        next => exact Or.inr (pickPlanetId_mem g planets hp _)
      · exact ihrows r h1

theorem paxLoop_spec {σ : Type} (g : RandGen σ) (planets : List Planet)
    (hp : planets ≠ []) (v : VesselIn) :
    ∀ (n : Nat) (existing : List String) (s : σ),
      (∀ x, x ∈ (paxLoop g planets hp v n existing s).2.1 ↔
        x ∈ ((paxLoop g planets hp v n existing s).1.map PersonRow.name) ∨ x ∈ existing) ∧
      (∀ nm ∈ ((paxLoop g planets hp v n existing s).1.map PersonRow.name), nm ∉ existing) ∧
      ((paxLoop g planets hp v n existing s).1.map PersonRow.name).Nodup ∧
      (∀ r ∈ (paxLoop g planets hp v n existing s).1,
        r.role = "passenger" ∧ r.vessel = v.id ∧
        r.nationality ∈ planets.map Planet.id) := by
  intro n
  induction n with
  | zero =>
    intro existing s
    refine ⟨fun x => by simp [paxLoop], ?_, by simp [paxLoop], ?_⟩
    · intro nm h; simp [paxLoop] at h
    · intro r h; simp [paxLoop] at h
  | succ k ih =>
    intro existing s
    obtain ⟨nm, s', hu, hnot⟩ := uniqueName_spec g existing none s
    simp only [paxLoop, hu, List.map_cons, List.mem_cons, List.nodup_cons]
    obtain ⟨ihset, ihfresh, ihnodup, ihrows⟩ := ih (nm :: existing) _
    refine ⟨?_, ?_, ?_, ?_⟩
    · intro x
      rw [ihset x]
      constructor
      · rintro (h1 | h2)
        · exact Or.inl (Or.inr h1)
        · rcases List.mem_cons.mp h2 with h3 | h3
          · exact Or.inl (Or.inl h3)
          · exact Or.inr h3
      · rintro ((h1 | h1) | h2)
        · exact Or.inr (h1 ▸ List.mem_cons_self _ _)
        · exact Or.inl h1
        · exact Or.inr (List.mem_cons_of_mem _ h2)
    · intro x hx
      rcases hx with h1 | h1
      · exact h1 ▸ hnot
      · intro hin
        exact ihfresh x h1 (List.mem_cons_of_mem _ hin)
    · refine ⟨?_, ihnodup⟩
      intro hin
      exact ihfresh nm hin (List.mem_cons_self _ _)
    · intro r hr
      rcases hr with h1 | h1
      · exact h1 ▸ ⟨rfl, rfl, pickPlanetId_mem g planets hp _⟩
      · exact ihrows r h1

end Passenger

namespace Passenger

theorem personsForVessel_spec {σ : Type} (g : RandGen σ) (planets : List Planet)
    (hp : planets ≠ []) (v : VesselIn) (scale : ℚ) (existing : List String) (s : σ) :
    (∀ x, x ∈ (personsForVessel g planets hp v scale existing s).2.1 ↔
      x ∈ ((personsForVessel g planets hp v scale existing s).1.map PersonRow.name) ∨
        x ∈ existing) ∧
    (∀ nm ∈ ((personsForVessel g planets hp v scale existing s).1.map PersonRow.name),
      nm ∉ existing) ∧
    ((personsForVessel g planets hp v scale existing s).1.map PersonRow.name).Nodup ∧
    (∀ r ∈ (personsForVessel g planets hp v scale existing s).1,
      r.vessel = v.id ∧
      (r.nationality = v.flag ∨ r.nationality ∈ planets.map Planet.id)) ∧
    (∃ capName rest,
      (personsForVessel g planets hp v scale existing s).1 =
        ⟨capName, "captain", v.flag, v.id⟩ :: rest ∧
      capName ∉ existing ∧
      (v.captain ≠ "" → v.captain ∉ existing → capName = v.captain) ∧
      (∀ r ∈ rest, r.role ≠ "captain")) := by
  obtain ⟨capName, s1, hcap, hcapnot⟩ := uniqueName_spec g existing (some v.captain) s
  simp only [personsForVessel, hcap]
  obtain ⟨cset, cfresh, cnodup, crows⟩ :=
    crewLoop_spec g planets hp v
      (scaledRandint g (typeProfileGet v.vtype).crewLo (typeProfileGet v.vtype).crewHi scale s1).1.toNat
      (capName :: existing)
      (scaledRandint g (typeProfileGet v.vtype).crewLo (typeProfileGet v.vtype).crewHi scale s1).2
  set crew := crewLoop g planets hp v
      (scaledRandint g (typeProfileGet v.vtype).crewLo (typeProfileGet v.vtype).crewHi scale s1).1.toNat
      (capName :: existing)
      (scaledRandint g (typeProfileGet v.vtype).crewLo (typeProfileGet v.vtype).crewHi scale s1).2
    with hcrew
  obtain ⟨pset, pfresh, pnodup, prows⟩ :=
    paxLoop_spec g planets hp v
      (scaledRandint g (typeProfileGet v.vtype).paxLo (typeProfileGet v.vtype).paxHi scale crew.2.2).1.toNat
      crew.2.1
      (scaledRandint g (typeProfileGet v.vtype).paxLo (typeProfileGet v.vtype).paxHi scale crew.2.2).2
  set pax := paxLoop g planets hp v
      (scaledRandint g (typeProfileGet v.vtype).paxLo (typeProfileGet v.vtype).paxHi scale crew.2.2).1.toNat
      crew.2.1
      (scaledRandint g (typeProfileGet v.vtype).paxLo (typeProfileGet v.vtype).paxHi scale crew.2.2).2
    with hpax
  have hexist_sub : ∀ x ∈ existing, x ∈ crew.2.1 := by
    intro x hx
    exact (cset x).mpr (Or.inr (List.mem_cons_of_mem _ hx))
  have hcap_in_crew : capName ∈ crew.2.1 :=
    (cset capName).mpr (Or.inr (List.mem_cons_self _ _))
  refine ⟨?_, ?_, ?_, ?_, ?_⟩
  · intro x
    simp only [List.map_cons, List.map_append, List.mem_cons, List.mem_append]
    rw [pset x, cset x]
    simp only [List.mem_cons]
    tauto
  · intro nm hnm
    simp only [List.map_cons, List.map_append, List.mem_cons, List.mem_append] at hnm
    rcases hnm with h1 | h2 | h3
    · exact h1 ▸ hcapnot
    · intro hin
      exact cfresh nm h2 (List.mem_cons_of_mem _ hin)
    · intro hin
      exact pfresh nm h3 (hexist_sub nm hin)
  · simp only [List.map_cons, List.map_append, List.nodup_cons]
    constructor
    · intro hin
      rcases List.mem_append.mp hin with h1 | h1
      · exact cfresh _ h1 (List.mem_cons_self _ _)
      · exact pfresh _ h1 hcap_in_crew
    · refine List.Nodup.append cnodup pnodup ?_
      intro a ha hb
      exact pfresh a hb ((cset a).mpr (Or.inl ha))
  · intro r hr
    rcases List.mem_cons.mp hr with h1 | h1
    · exact h1 ▸ ⟨rfl, Or.inl rfl⟩
    · rcases List.mem_append.mp h1 with h2 | h2
      · exact ⟨(crows r h2).2.1, (crows r h2).2.2⟩
      · exact ⟨(prows r h2).2.1, Or.inr (prows r h2).2.2⟩
  · refine ⟨capName, crew.1 ++ pax.1, rfl, hcapnot, ?_, ?_⟩
    · intro hne hnm
      have := uniqueName_preferred g existing v.captain s hne hnm
      rw [this] at hcap
      injection hcap with h1
      exact h1.symm
    · intro r hr
      rcases List.mem_append.mp hr with h2 | h2
      · rw [(crows r h2).1]
        decide
      · rw [(prows r h2).1]
        decide

end Passenger

theorem takeWhile_append_all {α : Type} (p : α → Bool) :
    ∀ (l1 l2 : List α), (∀ x ∈ l1, p x = true) →
      (l1 ++ l2).takeWhile p = l1 ++ l2.takeWhile p := by
  intro l1
  induction l1 with
  | nil => intro l2 _; simp
  | cons x xs ih =>
    intro l2 h
    have hx : p x = true := h x (List.mem_cons_self _ _)
    simp only [List.cons_append, List.takeWhile_cons, hx, if_true]
    rw [ih l2 (fun y hy => h y (List.mem_cons_of_mem _ hy))]

namespace Passenger

theorem passengersGo_fresh {σ : Type} (g : RandGen σ) (planets : List Planet)
    (hp : planets ≠ []) (scale : ℚ) :
    ∀ (vs : List VesselIn) (existing : List String) (s : σ),
      ∀ nm ∈ ((passengersGo g planets hp scale vs existing s).1.map PersonRow.name),
        nm ∉ existing := by
  intro vs
  induction vs with
  | nil => intro existing s nm h; simp [passengersGo] at h
  | cons u rest ih =>
    intro existing s nm hnm
    obtain ⟨bset, bfresh, _, _, _⟩ := personsForVessel_spec g planets hp u scale existing s
    simp only [passengersGo, List.map_append, List.mem_append] at hnm
    rcases hnm with h1 | h1
    · exact bfresh nm h1
    · intro hin
      exact ih _ _ nm h1 ((bset nm).mpr (Or.inr hin))

theorem passengersGo_names_nodup {σ : Type} (g : RandGen σ) (planets : List Planet)
    (hp : planets ≠ []) (scale : ℚ) :
    ∀ (vs : List VesselIn) (existing : List String) (s : σ),
      ((passengersGo g planets hp scale vs existing s).1.map PersonRow.name).Nodup := by
  intro vs
  induction vs with
  | nil => intro existing s; simp [passengersGo]
  | cons u rest ih =>
    intro existing s
    obtain ⟨bset, _, bnodup, _, _⟩ := personsForVessel_spec g planets hp u scale existing s
    simp only [passengersGo, List.map_append]
    refine List.Nodup.append bnodup (ih _ _) ?_
    intro a ha hb
    exact passengersGo_fresh g planets hp scale rest _ _ a hb ((bset a).mpr (Or.inl ha))

theorem generatePassengers_names_nodup {σ : Type} (g : RandGen σ)
    (planets : List Planet) (hp : planets ≠ []) (vessels : List VesselIn)
    (scale : ℚ) (s : σ) :
    ((generatePassengers g planets hp vessels scale s).map PersonRow.name).Nodup := by
  unfold generatePassengers
  exact passengersGo_names_nodup g planets hp scale vessels [] s

theorem passengersGo_fields {σ : Type} (g : RandGen σ) (planets : List Planet)
    (hp : planets ≠ []) (scale : ℚ) :
    ∀ (vs : List VesselIn) (existing : List String) (s : σ),
      (∀ v ∈ vs, v.flag ∈ planets.map Planet.id) →
      ∀ r ∈ (passengersGo g planets hp scale vs existing s).1,
        r.vessel ∈ vs.map VesselIn.id ∧ r.nationality ∈ planets.map Planet.id := by
  intro vs
  induction vs with
  | nil => intro existing s _ r h; simp [passengersGo] at h
  | cons u rest ih =>
    intro existing s hflags r hr
    obtain ⟨_, _, _, brows, _⟩ := personsForVessel_spec g planets hp u scale existing s
    simp only [passengersGo, List.mem_append] at hr
    rcases hr with h1 | h1
    · obtain ⟨hv, hn⟩ := brows r h1
      refine ⟨by simp [hv], ?_⟩
      rcases hn with h2 | h2
      · exact h2 ▸ hflags u (List.mem_cons_self _ _)
      · exact h2
    · obtain ⟨hv, hn⟩ := ih _ _ (fun v hv => hflags v (List.mem_cons_of_mem _ hv)) r h1
      exact ⟨by simp [List.mem_cons]; exact Or.inr (by simpa using hv), hn⟩

theorem passengersGo_vessel_only {σ : Type} (g : RandGen σ) (planets : List Planet)
    (hp : planets ≠ []) (scale : ℚ) :
    ∀ (vs : List VesselIn) (existing : List String) (s : σ),
      ∀ r ∈ (passengersGo g planets hp scale vs existing s).1,
        r.vessel ∈ vs.map VesselIn.id := by
  intro vs
  induction vs with
  | nil => intro existing s r h; simp [passengersGo] at h
  | cons u rest ih =>
    intro existing s r hr
    obtain ⟨_, _, _, brows, _⟩ := personsForVessel_spec g planets hp u scale existing s
    simp only [passengersGo, List.mem_append] at hr
    simp only [List.map_cons, List.mem_cons]
    rcases hr with h1 | h1
    · exact Or.inl (brows r h1).1
    · exact Or.inr (ih _ _ r h1)

end Passenger

namespace Passenger

theorem passengersGo_captain {σ : Type} (g : RandGen σ) (planets : List Planet)
    (hp : planets ≠ []) (scale : ℚ) :
    ∀ (vs : List VesselIn) (existing : List String) (s : σ) (v : VesselIn),
      v ∈ vs → (vs.map VesselIn.id).Nodup →
      ((passengersGo g planets hp scale vs existing s).1.countP
          (fun r => decide (r.vessel = v.id ∧ r.role = "captain"))) = 1 ∧
      (∃ cap,
        ((passengersGo g planets hp scale vs existing s).1.filter
          (fun r => decide (r.vessel = v.id))).head? = some cap ∧
        cap.role = "captain" ∧ cap.nationality = v.flag ∧
        cap.name ∉ existing ∧
        cap.name ∉ (((passengersGo g planets hp scale vs existing s).1.takeWhile
          (fun r => decide (r.vessel ≠ v.id))).map PersonRow.name) ∧
        (v.captain ≠ "" → v.captain ∉ existing →
          v.captain ∉ (((passengersGo g planets hp scale vs existing s).1.takeWhile
            (fun r => decide (r.vessel ≠ v.id))).map PersonRow.name) →
          cap.name = v.captain)) := by
  intro vs
  induction vs with
  | nil => intro existing s v hv; exact absurd hv (List.not_mem_nil v)
  | cons u rest ih =>
    intro existing s v hv hnd
    simp only [List.map_cons, List.nodup_cons] at hnd
    obtain ⟨huid, hndrest⟩ := hnd
    obtain ⟨bset, bfresh, bnodup, brows, capName, brest, hshape, hcapnot, hcappref,
      hbrestrole⟩ := personsForVessel_spec g planets hp u scale existing s
    simp only [passengersGo]
    rcases List.mem_cons.mp hv with hveq | hvmem
    · subst hveq
      have hrest0 : ∀ r ∈ (passengersGo g planets hp scale rest
          (personsForVessel g planets hp v scale existing s).2.1
          (personsForVessel g planets hp v scale existing s).2.2).1,
          r.vessel ≠ v.id := by
        intro r hr hcontra
        apply huid
        rw [← hcontra]
        exact passengersGo_vessel_only g planets hp scale rest _ _ r hr
      constructor
      · rw [List.countP_append, hshape, List.countP_cons]
        have h1 : brest.countP (fun r => decide (r.vessel = v.id ∧ r.role = "captain")) = 0 := by
          refine List.countP_eq_zero.mpr ?_
          intro r hr
          simp only [decide_eq_true_eq]
          rintro ⟨-, hrole⟩
          exact hbrestrole r hr hrole
        have h2 : (passengersGo g planets hp scale rest
            (personsForVessel g planets hp v scale existing s).2.1
            (personsForVessel g planets hp v scale existing s).2.2).1.countP
            (fun r => decide (r.vessel = v.id ∧ r.role = "captain")) = 0 := by
          refine List.countP_eq_zero.mpr ?_
          intro r hr
          simp only [decide_eq_true_eq]
          rintro ⟨hveq2, -⟩
          exact hrest0 r hr hveq2
        rw [h1, h2]
        simp
      · refine ⟨⟨capName, "captain", v.flag, v.id⟩, ?_, rfl, rfl, hcapnot, ?_, ?_⟩
        · rw [List.filter_append, hshape, List.filter_cons_of_pos (by simp)]
          simp
        · rw [hshape]
          simp only [List.cons_append, List.takeWhile_cons]
          simp
        · intro hne hnot _
          exact hcappref hne hnot
    · have huv : u.id ≠ v.id := by
        intro h
        exact huid (h ▸ List.mem_map_of_mem VesselIn.id hvmem)
      obtain ⟨ih1, cap, ihhead, ihrole, ihnat, ihex, ihtw, ihpref⟩ :=
        ih (personsForVessel g planets hp u scale existing s).2.1
          (personsForVessel g planets hp u scale existing s).2.2 v hvmem hndrest
      have hvesB : ∀ r ∈ (personsForVessel g planets hp u scale existing s).1,
          r.vessel = u.id := fun r hr => (brows r hr).1
      have hexsub : ∀ x ∈ existing,
          x ∈ (personsForVessel g planets hp u scale existing s).2.1 :=
        fun x hx => (bset x).mpr (Or.inr hx)
      have hBsub : ∀ x ∈ ((personsForVessel g planets hp u scale existing s).1.map
          PersonRow.name),
          x ∈ (personsForVessel g planets hp u scale existing s).2.1 :=
        fun x hx => (bset x).mpr (Or.inl hx)
      have htwall : (((personsForVessel g planets hp u scale existing s).1 ++
          (passengersGo g planets hp scale rest
            (personsForVessel g planets hp u scale existing s).2.1
            (personsForVessel g planets hp u scale existing s).2.2).1).takeWhile
          (fun r => decide (r.vessel ≠ v.id))) =
          (personsForVessel g planets hp u scale existing s).1 ++
          ((passengersGo g planets hp scale rest
            (personsForVessel g planets hp u scale existing s).2.1
            (personsForVessel g planets hp u scale existing s).2.2).1.takeWhile
            (fun r => decide (r.vessel ≠ v.id))) := by
        refine takeWhile_append_all _ _ _ ?_
        intro r hr
        simp [hvesB r hr, huv]
      constructor
      · rw [List.countP_append]
        have h0 : (personsForVessel g planets hp u scale existing s).1.countP
            (fun r => decide (r.vessel = v.id ∧ r.role = "captain")) = 0 := by
          refine List.countP_eq_zero.mpr ?_
          intro r hr
          simp only [decide_eq_true_eq]
          rintro ⟨hveq2, -⟩
          exact huv ((hvesB r hr) ▸ hveq2)
        rw [h0, ih1]
      · refine ⟨cap, ?_, ihrole, ihnat, ?_, ?_, ?_⟩
        · rw [List.filter_append]
          have h0 : (personsForVessel g planets hp u scale existing s).1.filter
              (fun r => decide (r.vessel = v.id)) = [] := by
            refine List.filter_eq_nil_iff.mpr ?_
            intro r hr
            simp only [decide_eq_true_eq]
            intro hveq2
            exact huv ((hvesB r hr) ▸ hveq2)
          rw [h0, List.nil_append]
          exact ihhead
        · intro hin
          exact ihex (hexsub _ hin)
        · rw [htwall]
          simp only [List.map_append, List.mem_append]
          rintro (h1 | h1)
          · exact ihex (hBsub _ h1)
          · exact ihtw h1
        · intro hne hnotex hnottw
          rw [htwall] at hnottw
          simp only [List.map_append, List.mem_append] at hnottw
          push_neg at hnottw
          refine ihpref hne ?_ hnottw.2
          intro hin
          rcases (bset v.captain).mp hin with h1 | h1
          · exact hnottw.1 h1
          · exact hnotex h1

end Passenger

/-- Does the character list start with the given pattern? -/
def hasPrefixChars : List Char → List Char → Bool
  | _, [] => true
  | [], _ :: _ => false
  | c :: cs, d :: ds => c == d && hasPrefixChars cs ds

/-- Does the character list contain the pattern as a contiguous run? -/
def hasSubChars : List Char → List Char → Bool
  | [], t => hasPrefixChars [] t
  | c :: cs, t => hasPrefixChars (c :: cs) t || hasSubChars cs t

/-- Python's `t in s` substring test. -/
def pyInStr (t s : String) : Bool := hasSubChars s.data t.data

/-- `TYPE_MAP` shared verbatim by `generate_cargo.py:34-47` and
`generate_log.py:44-57` (insertion order preserved). -/
def TYPE_MAP : List (String × List String) :=
  [("passenger liner", ["passenger liner", "liner", "passenger"]),
   ("interstellar shuttle", ["shuttle"]),
   ("private yacht", ["yacht", "private"]),
   ("bulk freighter", ["bulk freighter", "bulk", "freighter"]),
   ("container hauler", ["container", "hauler"]),
   ("tanker", ["tanker"]),
   ("fast courier", ["courier", "fast courier"]),
   ("research vessel", ["research"]),
   ("mining barge", ["mining"]),
   ("patrol corvette", ["patrol", "corvette"]),
   ("medical relief ship", ["medical"]),
   ("customs cutter", ["customs", "cutter"])]

def canonFind : List (String × List String) → String → String
  | [], _ => "unknown"
  | (canon, toks) :: rest, raw =>
    if toks.any (fun t => pyInStr t raw) then canon else canonFind rest raw

/-- ASCII lower-casing of one character (Python `str.lower` restricted
to ASCII, which covers every type token in the pipeline). -/
def lowerChar (c : Char) : Char :=
  if 65 ≤ c.toNat ∧ c.toNat ≤ 90 then Char.ofNat (c.toNat + 32) else c

/-- Python `s.lower()` on ASCII strings. -/
def pyLower (s : String) : String := ⟨s.data.map lowerChar⟩

/-- `canonical_type` (`generate_cargo.py:325-331` = `generate_log.py:129-135`). -/
def canonicalType (raw : String) : String := canonFind TYPE_MAP (pyLower raw)

namespace Cargo

/-- `VESSEL_CARGO_COUNTS.get(canon, VESSEL_CARGO_COUNTS["unknown"])`
(`generate_cargo.py:50-64,394`). -/
def VESSEL_CARGO_COUNTS : List (String × (ℤ × ℤ)) :=
  [("passenger liner", (8, 30)), ("interstellar shuttle", (2, 10)),
   ("private yacht", (1, 8)), ("bulk freighter", (10, 80)),
   ("container hauler", (20, 200)), ("tanker", (1, 6)),
   ("fast courier", (3, 18)), ("research vessel", (5, 30)),
   ("mining barge", (8, 60)), ("patrol corvette", (2, 10)),
   ("medical relief ship", (6, 40)), ("customs cutter", (2, 12)),
   ("unknown", (2, 12))]

def cargoCounts (canon : String) : ℤ × ℤ :=
  ((VESSEL_CARGO_COUNTS.find? (fun p => p.1 == canon)).map Prod.snd).getD (2, 12)

/-- One entry of `CATEGORY_DEFS` (`generate_cargo.py:72-235`). -/
structure CatDef where
  wLo : ℚ
  wHi : ℚ
  qLo : ℤ
  qHi : ℤ
  hazardProb : ℚ
  alwaysHazard : Bool
  templates : List String
deriving DecidableEq, Repr

def CATEGORY_DEFS : List (String × CatDef) :=
  [("Food", ⟨0.5, 20.0, 1, 12, 0.01, false,
    ["{qty} crates of Cryo-fruit", "{qty} cartons of Canned Rations",
     "{qty} kegs of Fermented Nectar", "{qty} pallets of Hydroponic Produce",
     "{qty} drums of Bottled Water"]⟩),
   ("Alcohol", ⟨0.5, 30.0, 1, 8, 0.01, false,
    ["{qty} cases of Distilled Spirits", "{qty} barrels of Aged Fortified Wine",
     "{qty} crates of Galactic Beer", "{qty} bottles of Vintage Liqueur"]⟩),
   ("Electronics", ⟨0.2, 50.0, 1, 20, 0.01, false,
    ["{qty} crates of Comms Arrays", "{qty} sealed boxes of Navigation Chips",
     "{qty} pallets of Consumer Electronics", "{qty} modules of Sensor Suites"]⟩),
   ("Medical", ⟨0.05, 20.0, 1, 30, 0.03, false,
    ["{qty} boxes of Vaccine Vials", "{qty} crates of Surgical Kits",
     "{qty} cases of Medical Consumables", "{qty} sealed containers of Sterile Dressings"]⟩),
   ("Luxury", ⟨0.1, 80.0, 1, 12, 0.01, false,
    ["{qty} crates of Luxury Textiles", "{qty} crates of Gemware",
     "{qty} packages of Designer Goods", "{qty} boxes of Antique Instruments"]⟩),
   ("Machinery", ⟨10.0, 5000.0, 1, 6, 0.02, false,
    ["{qty} heavy crates of Engine Components", "{qty} pallets of Industrial Pumps",
     "{qty} containers of Precision Gears", "{qty} crates of Manufacturing Rigs"]⟩),
   ("Spare Parts", ⟨0.5, 300.0, 1, 40, 0.01, false,
    ["{qty} boxes of Replacement Valves", "{qty} crates of Structural Fasteners",
     "{qty} pallets of Spare Assemblies", "{qty} bins of Electronics Spares"]⟩),
   ("Chemicals", ⟨5.0, 4000.0, 1, 12, 0.9, false,
    ["{qty} drums of Industrial Solvent", "{qty} barrels of Reactive Compound",
     "{qty} containers of Agricultural Pesticide", "{qty} drums of Cryo-reagent"]⟩),
   ("Explosives", ⟨1.0, 200.0, 1, 6, 1.0, true,
    ["{qty} crates of Demolition Charges", "{qty} sealed drums of Propellant",
     "{qty} cases of Pyrotechnic Rounds"]⟩),
   ("Radioactive", ⟨0.1, 200.0, 1, 4, 1.0, true,
    ["{qty} shielded containers of Radioisotopes", "{qty} lead-lined crates of Reactor Pellets"]⟩),
   ("Live Animals", ⟨1.0, 1200.0, 1, 20, 0.05, false,
    ["{qty} bio-cages of Migratory Herds", "{qty} crates of Domesticated Stock",
     "{qty} sealed terrariums of Exotic Fauna"]⟩),
   ("Fuel", ⟨500.0, 1000000.0, 1, 4, 0.95, false,
    ["{qty} tank-containers of Refined Fuel", "{qty} drums of Cryo-fuel",
     "{qty} bulk tanks of Hydrogen Slurry"]⟩),
   ("Raw Ore", ⟨100.0, 50000.0, 1, 12, 0.02, false,
    ["{qty} pallets of Iron Ore", "{qty} bulk sacks of Rare Earths",
     "{qty} crates of Refined Ore"]⟩),
   ("Weapons", ⟨1.0, 600.0, 1, 8, 0.85, false,
    ["{qty} crates of Military Hardware", "{qty} sealed crates of Ordinance",
     "{qty} pallets of Armament Components"]⟩)]

def DEFAULT_CATEGORY_WEIGHTS : List (String × ℚ) :=
  [("Spare Parts", 0.10), ("Machinery", 0.12), ("Food", 0.10),
   ("Electronics", 0.08), ("Luxury", 0.05), ("Chemicals", 0.06),
   ("Alcohol", 0.04), ("Medical", 0.06), ("Raw Ore", 0.08),
   ("Fuel", 0.05), ("Weapons", 0.01), ("Explosives", 0.01),
   ("Live Animals", 0.04), ("Radioactive", 0.01)]

def CATEGORY_WEIGHTS_BY_TYPE : List (String × List (String × ℚ)) :=
  [("container hauler",
    [("Spare Parts", 0.12), ("Machinery", 0.12), ("Electronics", 0.15),
     ("Food", 0.10), ("Luxury", 0.08), ("Alcohol", 0.06), ("Medical", 0.06),
     ("Raw Ore", 0.05), ("Weapons", 0.03), ("Chemicals", 0.06), ("Live Animals", 0.07)]),
   ("bulk freighter",
    [("Raw Ore", 0.50), ("Fuel", 0.15), ("Machinery", 0.10), ("Spare Parts", 0.07),
     ("Food", 0.08), ("Chemicals", 0.05), ("Live Animals", 0.05)]),
   ("tanker", [("Fuel", 0.70), ("Chemicals", 0.25), ("Spare Parts", 0.05)]),
   ("passenger liner",
    [("Luxury", 0.25), ("Food", 0.20), ("Electronics", 0.15), ("Medical", 0.10),
     ("Alcohol", 0.10), ("Spare Parts", 0.10), ("Live Animals", 0.05)]),
   ("private yacht",
    [("Luxury", 0.45), ("Alcohol", 0.20), ("Electronics", 0.15),
     ("Spare Parts", 0.10), ("Food", 0.10)]),
   ("fast courier",
    [("Electronics", 0.30), ("Medical", 0.20), ("Luxury", 0.15),
     ("Spare Parts", 0.15), ("Food", 0.20)]),
   ("mining barge",
    [("Raw Ore", 0.75), ("Spare Parts", 0.10), ("Machinery", 0.10), ("Fuel", 0.05)]),
   ("research vessel",
    [("Medical", 0.15), ("Electronics", 0.25), ("Chemicals", 0.20),
     ("Spare Parts", 0.20), ("Luxury", 0.05)]),
   ("customs cutter",
    [("Spare Parts", 0.30), ("Electronics", 0.25), ("Medical", 0.20), ("Food", 0.25)])]

def COMPANIES : List String :=
  ["AstraCorp Logistics", "Nova Traders", "Zenith Freight", "Orbital Freight Ltd",
   "Sol Systems Trading", "Horizon Shipping", "Pioneer Exporters", "Lumen Imports",
   "Aurora Holdings", "Mercury Trade Consortium", "Polaris Carriers", "Echelon Shipping"]

def FIRST_NAMES : List String :=
  ["Alex", "Samira", "Diego", "Mei", "Noah", "Aisha", "Karim", "Sofia", "Luca",
   "Yara", "Tariq", "Nina", "Jonas", "Ravi", "Leila", "Kaito", "Marta", "Omar",
   "Ibrahim", "Priya", "Ines", "Serge", "Dara", "Hana", "Arman", "Zoe"]

def SURNAMES : List String :=
  ["Okoye", "Fernandez", "Singh", "Johansson", "Khan", "Miller", "Garcia", "Chen",
   "Haddad", "Nakamura", "Silva", "Novak", "Rossi", "Patel", "Dubois", "Iversen"]

theorem COMPANIES_ne : COMPANIES ≠ [] := by unfold COMPANIES; exact List.cons_ne_nil _ _

theorem cFIRST_NAMES_ne : FIRST_NAMES ≠ [] := by
  unfold FIRST_NAMES; exact List.cons_ne_nil _ _

theorem cSURNAMES_ne : SURNAMES ≠ [] := by unfold SURNAMES; exact List.cons_ne_nil _ _

/-- `weighted_choice(items_with_weights)` (`generate_cargo.py:334-342`):
same accumulator loop, drawing `random.uniform(0, total)`. -/
def weightedChoice {σ α : Type} (g : RandGen σ) (pairs : List (α × ℚ))
    (h : pairs ≠ []) (s : σ) : α × σ :=
  let total := (pairs.map (fun p => p.2)).sum
  let r := g.uniform 0 total s
  ((wcFirst pairs r.1 0).getD (pairs.getLast h).1, r.2)

def categoryWeightsFor (canon : String) : List (String × ℚ) :=
  ((CATEGORY_WEIGHTS_BY_TYPE.find? (fun p => p.1 == canon)).map Prod.snd).getD
    DEFAULT_CATEGORY_WEIGHTS

theorem categoryWeightsFor_ne (canon : String) : categoryWeightsFor canon ≠ [] := by
  unfold categoryWeightsFor
  cases hf : CATEGORY_WEIGHTS_BY_TYPE.find? (fun p => p.1 == canon) with
  | none => decide
  | some p =>
    have hmem := List.mem_of_find?_eq_some hf
    have hall : ∀ q ∈ CATEGORY_WEIGHTS_BY_TYPE, q.2 ≠ [] := by decide
    show p.2 ≠ []
    exact hall p hmem

/-- `pick_category_for_vessel` (`generate_cargo.py:345-351`). -/
def pickCategoryForVessel {σ : Type} (g : RandGen σ) (canon : String) (s : σ) :
    String × σ :=
  weightedChoice g (categoryWeightsFor canon) (categoryWeightsFor_ne canon) s

def categoryDefsGet (cat : String) : Option CatDef :=
  (CATEGORY_DEFS.find? (fun p => p.1 == cat)).map Prod.snd

/-- The `cat_def is None` fallback of `generate_cargo.py:402-406`:
unknown categories fall back to `"Spare Parts"` (whose definition is
looked up in the same table; the `getD` default is unreachable since the
key is present). -/
def catDefResolve (cat : String) : String × CatDef :=
  match categoryDefsGet cat with
  | some cd => (cat, cd)
  | none => ("Spare Parts", (categoryDefsGet "Spare Parts").getD ⟨0, 0, 0, 0, 0, false, []⟩)

theorem catDefResolve_templates_ne (cat : String) : (catDefResolve cat).2.templates ≠ [] := by
  unfold catDefResolve
  cases hf : categoryDefsGet cat with
  | none =>
    show (("Spare Parts", (categoryDefsGet "Spare Parts").getD
      ⟨0, 0, 0, 0, 0, false, []⟩) : String × CatDef).2.templates ≠ []
    decide
  | some cd =>
    have hmem : ∀ q ∈ CATEGORY_DEFS, q.2.templates ≠ [] := by decide
    unfold categoryDefsGet at hf
    cases hf2 : CATEGORY_DEFS.find? (fun p => p.1 == cat) with
    | none => rw [hf2] at hf; simp at hf
    | some p =>
      rw [hf2] at hf
      have h3 : some p.2 = some cd := hf
      injection h3 with h4
      exact h4 ▸ hmem p (List.mem_of_find?_eq_some hf2)

/-- A generated CargoLine row
(`id,description,category,weight,hazardous,consignee,consignor,vessel`;
the CSV writes `hazardous` as 1/0). -/
structure CargoRow where
  id : Nat
  description : String
  category : String
  weight : ℚ
  hazardous : Bool
  consignee : String
  consignor : String
  vessel : ℤ
deriving DecidableEq, Repr

/-- `make_consignee` (`generate_cargo.py:368-373`). -/
def makeConsignee {σ : Type} (g : RandGen σ) (s : σ) : String × σ :=
  let r := g.randomUnit s
  if r.1 < 0.6 then pyChoice g COMPANIES COMPANIES_ne r.2
  else
    let a := pyChoice g FIRST_NAMES cFIRST_NAMES_ne r.2
    let b := pyChoice g SURNAMES cSURNAMES_ne a.2
    (a.1 ++ " " ++ b.1, b.2)

/-- `make_consignor` (`generate_cargo.py:376-381`). -/
def makeConsignor {σ : Type} (g : RandGen σ) (s : σ) : String × σ :=
  let r := g.randomUnit s
  if r.1 < 0.5 then pyChoice g COMPANIES COMPANIES_ne r.2
  else
    let a := pyChoice g FIRST_NAMES cFIRST_NAMES_ne r.2
    let b := pyChoice g SURNAMES cSURNAMES_ne a.2
    (a.1 ++ " " ++ b.1, b.2)

/-- One manifest line (`generate_cargo.py:400-436`). -/
def cargoLine {σ : Type} (g : RandGen σ) (canon : String) (vid : ℤ) (cid : Nat)
    (s : σ) : CargoRow × σ :=
  let catDraw := pickCategoryForVessel g canon s
  let resolved := catDefResolve catDraw.1
  let cd := resolved.2
  let qty := g.randint cd.qLo (max cd.qLo cd.qHi) catDraw.2
  let uw := g.uniform cd.wLo cd.wHi qty.2
  let weight := pyRound3 ((qty.1 : ℚ) * uw.1)
  let tmpl := pyChoice g cd.templates (catDefResolve_templates_ne catDraw.1) uw.2
  let description := tmpl.1.replace "{qty}" (decRepr qty.1.toNat)
  let haz : Bool × σ :=
    if cd.alwaysHazard then (true, tmpl.2)
    else
      let r := g.randomUnit tmpl.2
      (r.1 < cd.hazardProb, r.2)
  let ce := makeConsignee g haz.2
  let co := makeConsignor g ce.2
  (⟨cid, description, resolved.1, weight, haz.1, ce.1, co.1, vid⟩, co.2)

/-- The inner `for _ in range(n_items)` loop (`generate_cargo.py:400-436`). -/
def cargoLines {σ : Type} (g : RandGen σ) (canon : String) (vid : ℤ) :
    Nat → Nat → σ → List CargoRow × Nat × σ
  | 0, cid, s => ([], cid, s)
  | n + 1, cid, s =>
    let line := cargoLine g canon vid cid s
    let rest := cargoLines g canon vid n (cid + 1) line.2
    (line.1 :: rest.1, rest.2)

/-- The per-vessel loop of `generate_cargo` (`generate_cargo.py:392-436`). -/
def cargoGo {σ : Type} (g : RandGen σ) (scale : ℚ) :
    List VesselIn → Nat → σ → List CargoRow × Nat × σ
  | [], cid, s => ([], cid, s)
  | v :: rest, cid, s =>
    let canon := canonicalType v.vtype
    let bounds := cargoCounts canon
    let lo_s := max 1 (pyRound (bounds.1 * scale))
    let hi_s := max lo_s (pyRound (bounds.2 * scale))
    let n := g.randint lo_s hi_s s
    let lines := cargoLines g canon v.id n.1.toNat cid n.2
    let r := cargoGo g scale rest lines.2.1 lines.2.2
    (lines.1 ++ r.1, r.2)

/-- `generate_cargo` (`generate_cargo.py:384-436`); the row id counter
`cid` starts at 1. -/
def generateCargo {σ : Type} (g : RandGen σ) (vessels : List VesselIn)
    (seed : Option ℤ) (scale : ℚ) (s : σ) : List CargoRow :=
  (cargoGo g scale vessels 1 (seedState g seed s)).1

end Cargo

namespace Cargo

theorem cargoLine_id {σ : Type} (g : RandGen σ) (canon : String) (vid : ℤ)
    (cid : Nat) (s : σ) : (cargoLine g canon vid cid s).1.id = cid := rfl

theorem cargoLine_vessel {σ : Type} (g : RandGen σ) (canon : String) (vid : ℤ)
    (cid : Nat) (s : σ) : (cargoLine g canon vid cid s).1.vessel = vid := rfl

theorem cargoLines_spec {σ : Type} (g : RandGen σ) (canon : String) (vid : ℤ) :
    ∀ (n cid : Nat) (s : σ),
      ((cargoLines g canon vid n cid s).1.map CargoRow.id) = List.range' cid n ∧
      (cargoLines g canon vid n cid s).2.1 = cid + n ∧
      ∀ r ∈ (cargoLines g canon vid n cid s).1, r.vessel = vid := by
  intro n
  induction n with
  | zero =>
    intro cid s
    refine ⟨by simp [cargoLines], by simp [cargoLines], ?_⟩
    intro r h; simp [cargoLines] at h
  | succ k ih =>
    intro cid s
    obtain ⟨ih1, ih2, ih3⟩ := ih (cid + 1) (cargoLine g canon vid cid s).2
    refine ⟨?_, ?_, ?_⟩
    · simp only [cargoLines, List.map_cons, cargoLine_id, ih1, List.range'_succ]
    · simp only [cargoLines, ih2]
      omega
    · intro r hr
      simp only [cargoLines, List.mem_cons] at hr
      rcases hr with h1 | h1
      · exact h1 ▸ cargoLine_vessel g canon vid cid s
      · exact ih3 r h1

theorem cargoGo_spec {σ : Type} (g : RandGen σ) (scale : ℚ) :
    ∀ (vs : List VesselIn) (cid : Nat) (s : σ),
      ((cargoGo g scale vs cid s).1.map CargoRow.id) =
        List.range' cid (cargoGo g scale vs cid s).1.length ∧
      (cargoGo g scale vs cid s).2.1 = cid + (cargoGo g scale vs cid s).1.length ∧
      ∀ r ∈ (cargoGo g scale vs cid s).1, r.vessel ∈ vs.map VesselIn.id := by
  intro vs
  induction vs with
  | nil =>
    intro cid s
    refine ⟨by simp [cargoGo], by simp [cargoGo], ?_⟩
    intro r h; simp [cargoGo] at h
  | cons v rest ih =>
    intro cid s
    simp only [cargoGo]
    set nd := g.randint (max 1 (pyRound ((cargoCounts (canonicalType v.vtype)).1 * scale)))
        (max (max 1 (pyRound ((cargoCounts (canonicalType v.vtype)).1 * scale)))
          (pyRound ((cargoCounts (canonicalType v.vtype)).2 * scale))) s with hnd
    set lines := cargoLines g (canonicalType v.vtype) v.id nd.1.toNat cid nd.2 with hlines
    obtain ⟨l1, l2, l3⟩ := cargoLines_spec g (canonicalType v.vtype) v.id nd.1.toNat cid nd.2
    rw [← hlines] at l1 l2 l3
    obtain ⟨g1, g2, g3⟩ := ih lines.2.1 lines.2.2
    have hlen : lines.1.length = nd.1.toNat := by
      have := congrArg List.length l1
      simpa using this
    refine ⟨?_, ?_, ?_⟩
    · rw [List.map_append, List.length_append, l1, g1, l2, hlen, List.range'_append_1,
        Nat.add_comm]
    · rw [List.length_append, g2, l2, hlen]
      omega
    · intro r hr
      rcases List.mem_append.mp hr with h1 | h1
      · simp only [List.map_cons, List.mem_cons]
        exact Or.inl (l3 r h1)
      · simp only [List.map_cons, List.mem_cons]
        exact Or.inr (g3 r h1)

theorem generateCargo_ids {σ : Type} (g : RandGen σ) (vessels : List VesselIn)
    (seed : Option ℤ) (scale : ℚ) (s : σ) :
    (generateCargo g vessels seed scale s).map CargoRow.id =
      List.range' 1 (generateCargo g vessels seed scale s).length := by
  unfold generateCargo
  exact (cargoGo_spec g scale vessels 1 _).1

theorem generateCargo_vessels {σ : Type} (g : RandGen σ) (vessels : List VesselIn)
    (seed : Option ℤ) (scale : ℚ) (s : σ) :
    ∀ r ∈ generateCargo g vessels seed scale s,
      r.vessel ∈ vessels.map VesselIn.id := by
  unfold generateCargo
  exact (cargoGo_spec g scale vessels 1 _).2.2

end Cargo

namespace Log

/-- `PLANET_STATUS_WEIGHTS.get(status, 0.3)` (`generate_log.py:35-41,144`). -/
def statusWeight (st : String) : ℚ :=
  if st = "normal" then 1.0
  else if st = "frontier" then 0.6
  else if st = "restricted" then 0.4
  else if st = "quarantine" then 0.2
  else if st = "embargo" then 0.15
  else 0.3

/-- A travel profile of `TYPE_PROFILES` (`generate_log.py:65-78`). -/
structure Profile where
  prevLo : ℤ
  prevHi : ℤ
  stayLo : ℤ
  stayHi : ℤ
  travelLo : ℤ
  travelHi : ℤ
deriving DecidableEq, Repr

def TYPE_PROFILES : List (String × Profile) :=
  [("passenger liner", ⟨2, 6, 12, 72, 24, 240⟩),
   ("interstellar shuttle", ⟨1, 4, 2, 10, 6, 48⟩),
   ("private yacht", ⟨0, 3, 4, 48, 12, 120⟩),
   ("bulk freighter", ⟨1, 5, 12, 96, 48, 480⟩),
   ("container hauler", ⟨1, 5, 12, 96, 48, 360⟩),
   ("tanker", ⟨1, 4, 24, 120, 48, 360⟩),
   ("fast courier", ⟨1, 4, 1, 12, 6, 72⟩),
   ("research vessel", ⟨1, 6, 24, 168, 24, 480⟩),
   ("mining barge", ⟨1, 6, 24, 240, 48, 720⟩),
   ("patrol corvette", ⟨0, 3, 6, 72, 12, 120⟩),
   ("medical relief ship", ⟨1, 4, 24, 168, 24, 240⟩),
   ("customs cutter", ⟨0, 4, 6, 24, 12, 120⟩)]

/-- `DEFAULT_PROFILE` (`generate_log.py:81`). -/
def DEFAULT_PROFILE : Profile := ⟨0, 3, 6, 48, 12, 120⟩

/-- `TYPE_PROFILES.get(canon, DEFAULT_PROFILE)` (`generate_log.py:187`). -/
def typeProfilesGet (canon : String) : Profile :=
  ((TYPE_PROFILES.find? (fun p => p.1 == canon)).map Prod.snd).getD DEFAULT_PROFILE

def FINAL_PORT_FLAG_BIAS : ℚ := 0.35

/-- Gregorian leap-year rule (`datetime`). -/
def isLeap (y : Nat) : Bool := y % 4 == 0 && (y % 100 != 0 || y % 400 == 0)

def daysInYear (y : Nat) : Nat := if isLeap y then 366 else 365

/-- Number of Gregorian leap years in `[1, y)` (closed form). -/
def leapsBefore (y : Nat) : Nat := (y - 1) / 4 - (y - 1) / 100 + (y - 1) / 400

/-- Days from 1970-01-01 to the start of year `y` (closed Gregorian
formula: 365 days per year plus one per leap year in `[1970, y)`);
models the `datetime(...).timestamp()` arithmetic of the Python
standard library. -/
def daysFrom1970 (y : Nat) : Nat :=
  if y ≤ 1970 then 0 else 365 * (y - 1970) + (leapsBefore y - leapsBefore 1970)

def JUNE_YEAR : Nat := 2973

/-- Days in January through May of year `y`. -/
def daysJanToMay (y : Nat) : Nat := 31 + (if isLeap y then 29 else 28) + 31 + 30 + 31

/-- Unix timestamp (UTC seconds) of `datetime(JUNE_YEAR, 6, 1, 0, 0, 0)`. -/
def juneBaseInt : ℤ := 86400 * ((daysFrom1970 JUNE_YEAR + daysJanToMay JUNE_YEAR : Nat) : ℤ)

/-- Timestamp of `datetime(JUNE_YEAR, 6, day, hour, minute, second)`, as
exact rational seconds. -/
def juneTs (day hour minute second : ℤ) : ℚ :=
  ((juneBaseInt + (day - 1) * 86400 + hour * 3600 + minute * 60 + second : ℤ) : ℚ)

def JUNE_DAY_MIN : ℤ := 1

def JUNE_DAY_MAX : ℤ := 28

/-- `random_datetime_in_june` (`generate_log.py:158-163`). -/
def randomDatetimeInJune {σ : Type} (g : RandGen σ) (s : σ) : ℚ × σ :=
  let d := g.randint JUNE_DAY_MIN JUNE_DAY_MAX s
  let h := g.randint 0 23 d.2
  let m := g.randint 0 59 h.2
  let sec := g.randint 0 59 m.2
  (juneTs d.1 h.1 m.1 sec.1, sec.2)

/-- `sample_int_hours` (`generate_log.py:155-156`); the profile bounds
are already integers, so `int()` is the identity on them. -/
def sampleIntHours {σ : Type} (g : RandGen σ) (lo hi : ℤ) (s : σ) : ℤ × σ :=
  g.randint lo (max lo hi) s

/-- `pick_planet_weighted` (`generate_log.py:137-153`).  When the
exclusion empties the candidate list the Python `items[-1]` raises
`IndexError`; that exception is the `none` result. -/
def pickPlanetWeighted {σ : Type} (g : RandGen σ) (planets : List Planet)
    (exclude : Option ℤ) (s : σ) : Option ℤ × σ :=
  let filtered := planets.filter (fun p => decide (exclude ≠ some p.id))
  let pairs := filtered.map (fun p => (p.id, statusWeight p.status))
  let total := (pairs.map (fun p => p.2)).sum
  let r := g.uniform 0 total s
  (match wcFirst pairs r.1 0 with
   | some v => some v
   | none => pairs.getLast?.map (fun p => p.1), r.2)

/-- A generated LogEntry row (`id,port,arrival,departure,vessel`). -/
structure LogRow where
  id : Nat
  port : ℤ
  arrival : ℤ
  departure : ℤ
  vessel : ℤ
deriving DecidableEq, Repr

/-- The previous-stop-count draw of `generate_log.py:189-194`: clamp the
profile's upper bound to the global cap, but raise it back to the lower
bound when the clamp drops below it, then draw. -/
def prevCountDraw {σ : Type} (g : RandGen σ) (profile : Profile) (maxPrev : ℤ)
    (s : σ) : ℤ × σ :=
  let pmin := profile.prevLo
  let pmax0 := min profile.prevHi maxPrev
  let pmax := if pmax0 < pmin then pmin else pmax0
  g.randint pmin pmax s

/-- The backward walk of `generate_log.py:213-243`: each step draws a
travel duration and a stay duration (hours, converted to seconds),
computes this step's departure/arrival behind the following step's
arrival, picks a port excluding the following step's port, and emits the
row.  The `candidate is None` fallback of `generate_log.py:227-229` is
unreachable: `pick_planet_weighted` returns an id or raises. -/
def backWalk {σ : Type} (g : RandGen σ) (planets : List Planet) (profile : Profile)
    (vid : ℤ) : Nat → Nat → ℚ → ℤ → σ → Option (List LogRow × Nat × σ)
  | 0, logId, _, _, s => some ([], logId, s)
  | k + 1, logId, nextArrival, nextPort, s =>
    let travel := g.uniform (profile.travelLo : ℚ) (profile.travelHi : ℚ) s
    let prevDep := nextArrival - travel.1 * 3600
    let stay := g.uniform ((profile.stayLo : ℚ) * 0.5) (profile.stayHi : ℚ) travel.2
    let prevArr := prevDep - stay.1 * 3600
    let cand := pickPlanetWeighted g planets (some nextPort) stay.2
    match cand.1 with
    | none => none
    | some c =>
      match backWalk g planets profile vid k (logId + 1) prevArr c cand.2 with
      | none => none
      | some (rows, logId', s') =>
        some (⟨logId, c, pyTrunc prevArr, pyTrunc prevDep, vid⟩ :: rows, logId', s')

/-- One vessel's block of `generate_logs` (`generate_log.py:184-253`):
draw the previous-stop count, the anchor arrival/stay, the (possibly
flag-biased) final port, run the backward walk, and append the anchor
row last. -/
def vesselEntry {σ : Type} (g : RandGen σ) (planets : List Planet)
    (planetIds : List ℤ) (v : VesselIn) (maxPrev : ℤ) (logId : Nat) (s : σ) :
    Option (List LogRow × Nat × σ) :=
  let profile := typeProfilesGet (canonicalType v.vtype)
  let pc := prevCountDraw g profile maxPrev s
  let fa := randomDatetimeInJune g pc.2
  let fs := sampleIntHours g profile.stayLo profile.stayHi fa.2
  let fdep := fa.1 + (fs.1 : ℚ) * 3600
  let rbias := g.randomUnit fs.2
  let fp : Option ℤ × σ :=
    if rbias.1 < FINAL_PORT_FLAG_BIAS ∧ v.flag ∈ planetIds then (some v.flag, rbias.2)
    else pickPlanetWeighted g planets none rbias.2
  match fp.1 with
  | none => none
  | some finalPort =>
    match backWalk g planets profile v.id pc.1.toNat logId fa.1 finalPort fp.2 with
    | none => none
    | some (rows, logId', s') =>
      some (rows ++ [⟨logId', finalPort, pyTrunc fa.1, pyTrunc fdep, v.id⟩],
        logId' + 1, s')

/-- The vessel loop of `generate_logs` (`generate_log.py:178-253`). -/
def logsGo {σ : Type} (g : RandGen σ) (planets : List Planet) (planetIds : List ℤ)
    (maxPrev : ℤ) : List VesselIn → Nat → σ → Option (List LogRow × Nat × σ)
  | [], logId, s => some ([], logId, s)
  | v :: rest, logId, s =>
    match vesselEntry g planets planetIds v maxPrev logId s with
    | none => none
    | some (rows, logId', s') =>
      match logsGo g planets planetIds maxPrev rest logId' s' with
      | none => none
      | some (rrows, logId'', s'') => some (rows ++ rrows, logId'', s'')

/-- `generate_logs` (`generate_log.py:173-265`): seeds when an explicit
seed is given, precomputes `planet_ids`, runs the vessel loop with the
row id counter starting at 1, and returns the rows (in place of the CSV
write); `none` models the `IndexError` abort. -/
def generateLogs {σ : Type} (g : RandGen σ) (planets : List Planet)
    (vessels : List VesselIn) (seed : Option ℤ) (maxPrev : ℤ) (s : σ) :
    Option (List LogRow) :=
  (logsGo g planets (planets.map Planet.id) maxPrev vessels 1
    (seedState g seed s)).map (fun r => r.1)

end Log

theorem mem_of_getLast?_eq_some {α : Type} {l : List α} {a : α}
    (h : l.getLast? = some a) : a ∈ l := by
  have hmem : a ∈ l.getLast? := Option.mem_def.mpr h
  obtain ⟨hne, heq⟩ := List.mem_getLast?_eq_getLast hmem
  exact heq ▸ List.getLast_mem hne

namespace Log

theorem pickPlanetWeighted_mem {σ : Type} (g : RandGen σ) (planets : List Planet)
    (exclude : Option ℤ) (s : σ) (x : ℤ)
    (h : (pickPlanetWeighted g planets exclude s).1 = some x) :
    x ∈ planets.map Planet.id := by
  unfold pickPlanetWeighted at h
  simp only at h
  set filtered := planets.filter (fun p => decide (exclude ≠ some p.id)) with hfil
  set pairs := filtered.map (fun p => (p.id, statusWeight p.status)) with hpairs
  have pair_mem : ∀ q : ℤ × ℚ, q ∈ pairs → q.1 ∈ planets.map Planet.id := by
    intro q hq
    rw [hpairs] at hq
    obtain ⟨p, hpmem, hpq⟩ := List.mem_map.mp hq
    rw [hfil] at hpmem
    exact hpq ▸ List.mem_map_of_mem _ (List.mem_of_mem_filter hpmem)
  cases hwc : wcFirst pairs
      (g.uniform 0 ((pairs.map (fun p => p.2)).sum) s).1 0 with
  | some v =>
    rw [hwc] at h
    injection h with h1
    obtain ⟨q, hq, hqv⟩ := wcFirst_mem _ _ _ _ hwc
    exact h1 ▸ hqv ▸ pair_mem q hq
  | none =>
    rw [hwc] at h
    cases hlast : pairs.getLast? with
    | none => rw [hlast] at h; simp at h
    | some q =>
      rw [hlast] at h
      simp only [Option.map_some] at h
      injection h with h1
      exact h1 ▸ pair_mem q (mem_of_getLast?_eq_some hlast)

/-- The sanity facts about every travel profile that the time reasoning
needs: nonnegative lower bounds and ordered ranges. -/
def ProfileOk (p : Profile) : Prop :=
  0 ≤ p.travelLo ∧ p.travelLo ≤ p.travelHi ∧ 0 ≤ p.stayLo ∧ p.stayLo ≤ p.stayHi ∧
    p.prevLo ≤ p.prevHi ∧ 0 ≤ p.prevLo

instance (p : Profile) : Decidable (ProfileOk p) := by unfold ProfileOk; infer_instance

theorem typeProfilesGet_ok (canon : String) : ProfileOk (typeProfilesGet canon) := by
  unfold typeProfilesGet
  cases hf : TYPE_PROFILES.find? (fun p => p.1 == canon) with
  | none => decide
  | some p =>
    have hall : ∀ q ∈ TYPE_PROFILES, ProfileOk q.2 := by decide
    show ProfileOk p.2
    exact hall p (List.mem_of_find?_eq_some hf)

theorem backWalk_struct {σ : Type} (g : RandGen σ) (planets : List Planet)
    (profile : Profile) (vid : ℤ) :
    ∀ (k logId : Nat) (na : ℚ) (np : ℤ) (s : σ) (rows : List LogRow)
      (logId' : Nat) (s' : σ),
      backWalk g planets profile vid k logId na np s = some (rows, logId', s') →
      rows.map LogRow.id = List.range' logId k ∧ logId' = logId + k ∧
        rows.length = k ∧
        ∀ r ∈ rows, r.vessel = vid ∧ r.port ∈ planets.map Planet.id := by
  intro k
  induction k with
  | zero =>
    intro logId na np s rows logId' s' h
    simp only [backWalk, Option.some.injEq, Prod.mk.injEq] at h
    obtain ⟨rfl, rfl, rfl⟩ := h
    refine ⟨by simp, by simp, by simp, ?_⟩
    intro r hr; simp at hr
  | succ kk ih =>
    intro logId na np s rows logId' s' h
    simp only [backWalk] at h
    set travel := g.uniform (profile.travelLo : ℚ) (profile.travelHi : ℚ) s with htravel
    set stay := g.uniform ((profile.stayLo : ℚ) * 0.5) (profile.stayHi : ℚ) travel.2 with hstay
    set cand := pickPlanetWeighted g planets (some np) stay.2 with hcand
    cases hc : cand.1 with
    | none => rw [hc] at h; simp at h
    | some c =>
      rw [hc] at h
      dsimp only at h
      cases hbw : backWalk g planets profile vid kk (logId + 1)
          (na - travel.1 * 3600 - stay.1 * 3600) c cand.2 with
      | none => rw [hbw] at h; simp at h
      | some triple =>
        rw [hbw] at h
        obtain ⟨rrows, rid, rs⟩ := triple
        simp only [Option.some.injEq, Prod.mk.injEq] at h
        obtain ⟨h1, h2, h3⟩ := h
        obtain ⟨i1, i2, i3, i4⟩ := ih (logId + 1) _ c cand.2 rrows rid rs hbw
        refine ⟨?_, ?_, ?_, ?_⟩
        · rw [← h1]
          simp only [List.map_cons, i1, List.range'_succ]
        · rw [← h2]
          omega
        · rw [← h1]
          simp only [List.length_cons, i3]
        · intro r hr
          rw [← h1] at hr
          rcases List.mem_cons.mp hr with hh | hh
          · subst hh
            refine ⟨rfl, ?_⟩
            exact pickPlanetWeighted_mem g planets (some np) stay.2 c hc
          · exact i4 r hh

end Log

theorem pyTrunc_intCast (n : ℤ) : pyTrunc ((n : ℤ) : ℚ) = n := by
  unfold pyTrunc
  split
  next => exact Int.floor_intCast n
  next =>
    rw [← Int.cast_neg, Int.floor_intCast]
    omega

namespace Log

theorem backWalk_times {σ : Type} (g : RandGen σ) (planets : List Planet)
    (profile : Profile) (vid : ℤ) (hwf : WF g) (hok : ProfileOk profile) :
    ∀ (k logId : Nat) (na : ℚ) (np : ℤ) (s : σ) (rows : List LogRow)
      (logId' : Nat) (s' : σ),
      backWalk g planets profile vid k logId na np s = some (rows, logId', s') →
      ∀ r ∈ rows, r.arrival ≤ pyTrunc na ∧ r.arrival ≤ r.departure := by
  intro k
  induction k with
  | zero =>
    intro logId na np s rows logId' s' h
    simp only [backWalk, Option.some.injEq, Prod.mk.injEq] at h
    obtain ⟨rfl, rfl, rfl⟩ := h
    intro r hr; simp at hr
  | succ kk ih =>
    intro logId na np s rows logId' s' h
    simp only [backWalk] at h
    set travel := g.uniform (profile.travelLo : ℚ) (profile.travelHi : ℚ) s with htravel
    set stay := g.uniform ((profile.stayLo : ℚ) * 0.5) (profile.stayHi : ℚ) travel.2 with hstay
    set cand := pickPlanetWeighted g planets (some np) stay.2 with hcand
    obtain ⟨hok1, hok2, hok3, hok4, -, -⟩ := hok
    have htrav_lo : (profile.travelLo : ℚ) ≤ travel.1 := by
      rw [htravel]
      exact hwf.uniform_lo _ _ _ (by exact_mod_cast hok2)
    have htrav_pos : (0 : ℚ) ≤ travel.1 :=
      le_trans (by exact_mod_cast hok1) htrav_lo
    have hstay_lo : (profile.stayLo : ℚ) * 0.5 ≤ stay.1 := by
      rw [hstay]
      refine hwf.uniform_lo _ _ _ ?_
      have h05 : (0 : ℚ) ≤ (profile.stayLo : ℚ) := by exact_mod_cast hok3
      have hsb : (profile.stayLo : ℚ) ≤ (profile.stayHi : ℚ) := by exact_mod_cast hok4
      nlinarith
    have hstay_pos : (0 : ℚ) ≤ stay.1 := by
      have h05 : (0 : ℚ) ≤ (profile.stayLo : ℚ) := by exact_mod_cast hok3
      nlinarith
    cases hc : cand.1 with
    | none => rw [hc] at h; simp at h
    | some c =>
      rw [hc] at h
      dsimp only at h
      cases hbw : backWalk g planets profile vid kk (logId + 1)
          (na - travel.1 * 3600 - stay.1 * 3600) c cand.2 with
      | none => rw [hbw] at h; simp at h
      | some triple =>
        rw [hbw] at h
        obtain ⟨rrows, rid, rs⟩ := triple
        simp only [Option.some.injEq, Prod.mk.injEq] at h
        obtain ⟨h1, -, -⟩ := h
        have iharr := ih (logId + 1) _ c cand.2 rrows rid rs hbw
        intro r hr
        rw [← h1] at hr
        rcases List.mem_cons.mp hr with hh | hh
        · subst hh
          constructor
          · refine pyTrunc_mono ?_
            nlinarith
          · refine pyTrunc_mono ?_
            nlinarith
        · obtain ⟨ha, hd⟩ := iharr r hh
          refine ⟨le_trans ha (pyTrunc_mono ?_), hd⟩
          nlinarith

/-- June 2973, days 1-28: the anchor calendar window
(`generate_log.py:87-90,158-163`). -/
def inWindow (t : ℤ) : Prop :=
  juneBaseInt ≤ t ∧ t ≤ juneBaseInt + 27 * 86400 + 23 * 3600 + 59 * 60 + 59

instance (t : ℤ) : Decidable (inWindow t) := by unfold inWindow; infer_instance

theorem randomDatetimeInJune_window {σ : Type} (g : RandGen σ) (hwf : WF g) (s : σ) :
    inWindow (pyTrunc (randomDatetimeInJune g s).1) := by
  have hd1 : (1 : ℤ) ≤ (g.randint JUNE_DAY_MIN JUNE_DAY_MAX s).1 :=
    hwf.randint_lo _ _ _ (by decide)
  have hd2 : (g.randint JUNE_DAY_MIN JUNE_DAY_MAX s).1 ≤ 28 :=
    hwf.randint_hi _ _ _ (by decide)
  have hh1 : (0 : ℤ) ≤ (g.randint 0 23 (g.randint JUNE_DAY_MIN JUNE_DAY_MAX s).2).1 :=
    hwf.randint_lo _ _ _ (by omega)
  have hh2 : (g.randint 0 23 (g.randint JUNE_DAY_MIN JUNE_DAY_MAX s).2).1 ≤ 23 :=
    hwf.randint_hi _ _ _ (by omega)
  have hm1 : (0 : ℤ) ≤ (g.randint 0 59
      (g.randint 0 23 (g.randint JUNE_DAY_MIN JUNE_DAY_MAX s).2).2).1 :=
    hwf.randint_lo _ _ _ (by omega)
  have hm2 : (g.randint 0 59
      (g.randint 0 23 (g.randint JUNE_DAY_MIN JUNE_DAY_MAX s).2).2).1 ≤ 59 :=
    hwf.randint_hi _ _ _ (by omega)
  have hs1 : (0 : ℤ) ≤ (g.randint 0 59 (g.randint 0 59
      (g.randint 0 23 (g.randint JUNE_DAY_MIN JUNE_DAY_MAX s).2).2).2).1 :=
    hwf.randint_lo _ _ _ (by omega)
  have hs2 : (g.randint 0 59 (g.randint 0 59
      (g.randint 0 23 (g.randint JUNE_DAY_MIN JUNE_DAY_MAX s).2).2).2).1 ≤ 59 :=
    hwf.randint_hi _ _ _ (by omega)
  unfold randomDatetimeInJune juneTs
  rw [pyTrunc_intCast]
  unfold inWindow
  omega

end Log

namespace Log

theorem vesselEntry_struct {σ : Type} (g : RandGen σ) (planets : List Planet)
    (planetIds : List ℤ) (v : VesselIn) (maxPrev : ℤ)
    (hpid : planetIds = planets.map Planet.id) :
    ∀ (logId : Nat) (s : σ) (rows : List LogRow) (logId' : Nat) (s' : σ),
      vesselEntry g planets planetIds v maxPrev logId s = some (rows, logId', s') →
      rows.map LogRow.id = List.range' logId rows.length ∧
      logId' = logId + rows.length ∧
      rows.length =
        (prevCountDraw g (typeProfilesGet (canonicalType v.vtype)) maxPrev s).1.toNat + 1 ∧
      ∀ r ∈ rows, r.vessel = v.id ∧ r.port ∈ planets.map Planet.id := by
  intro logId s rows logId' s' h
  simp only [vesselEntry] at h
  set profile := typeProfilesGet (canonicalType v.vtype) with hprof
  set pc := prevCountDraw g profile maxPrev s with hpc
  set fa := randomDatetimeInJune g pc.2 with hfa
  set fs := sampleIntHours g profile.stayLo profile.stayHi fa.2 with hfs
  set rbias := g.randomUnit fs.2 with hrb
  have main : ∀ (fport : ℤ) (s0 : σ), fport ∈ planets.map Planet.id →
      (match backWalk g planets profile v.id pc.1.toNat logId fa.1 fport s0 with
        | none => none
        | some (brows, bid, bs) =>
          some (brows ++ [⟨bid, fport, pyTrunc fa.1, pyTrunc (fa.1 + (fs.1 : ℚ) * 3600), v.id⟩],
            bid + 1, bs)) = some (rows, logId', s') →
      rows.map LogRow.id = List.range' logId rows.length ∧
      logId' = logId + rows.length ∧
      rows.length = pc.1.toNat + 1 ∧
      ∀ r ∈ rows, r.vessel = v.id ∧ r.port ∈ planets.map Planet.id := by
    intro fport s0 hfmem hm
    cases hbw : backWalk g planets profile v.id pc.1.toNat logId fa.1 fport s0 with
    | none => rw [hbw] at hm; simp at hm
    | some triple =>
      rw [hbw] at hm
      obtain ⟨brows, bid, bs⟩ := triple
      simp only [Option.some.injEq, Prod.mk.injEq] at hm
      obtain ⟨h1, h2, -⟩ := hm
      obtain ⟨b1, b2, b3, b4⟩ := backWalk_struct g planets profile v.id
        pc.1.toNat logId fa.1 fport s0 brows bid bs hbw
      have hlen : rows.length = pc.1.toNat + 1 := by
        rw [← h1, List.length_append, b3]
        simp
      refine ⟨?_, ?_, hlen, ?_⟩
      · rw [hlen, ← h1, List.map_append, b1]
        simp only [List.map_cons, List.map_nil]
        rw [b2, List.range'_1_concat]
      · rw [hlen, ← h2, b2]
        omega
      · intro r hr
        rw [← h1] at hr
        rcases List.mem_append.mp hr with hh | hh
        · exact b4 r hh
        · simp only [List.mem_singleton] at hh
          subst hh
          exact ⟨rfl, hfmem⟩
  by_cases hbias : rbias.1 < FINAL_PORT_FLAG_BIAS ∧ v.flag ∈ planetIds
  · rw [if_pos hbias] at h
    exact main v.flag rbias.2 (hpid ▸ hbias.2) h
  · rw [if_neg hbias] at h
    cases hfp : (pickPlanetWeighted g planets none rbias.2).1 with
    | none => rw [hfp] at h; simp at h
    | some p =>
      rw [hfp] at h
      exact main p (pickPlanetWeighted g planets none rbias.2).2
        (pickPlanetWeighted_mem g planets none rbias.2 p hfp) h

end Log

namespace Log

theorem vesselEntry_times {σ : Type} (g : RandGen σ) (planets : List Planet)
    (planetIds : List ℤ) (v : VesselIn) (maxPrev : ℤ) (hwf : WF g) :
    ∀ (logId : Nat) (s : σ) (rows : List LogRow) (logId' : Nat) (s' : σ),
      vesselEntry g planets planetIds v maxPrev logId s = some (rows, logId', s') →
      ∃ last, rows.getLast? = some last ∧ inWindow last.arrival ∧
        ∀ r ∈ rows, r.arrival ≤ last.arrival ∧ r.arrival ≤ r.departure := by
  intro logId s rows logId' s' h
  simp only [vesselEntry] at h
  set profile := typeProfilesGet (canonicalType v.vtype) with hprof
  have hok : ProfileOk profile := typeProfilesGet_ok _
  set pc := prevCountDraw g profile maxPrev s with hpc
  set fa := randomDatetimeInJune g pc.2 with hfa
  set fs := sampleIntHours g profile.stayLo profile.stayHi fa.2 with hfs
  set rbias := g.randomUnit fs.2 with hrb
  have hwin : inWindow (pyTrunc fa.1) := by
    rw [hfa]
    exact randomDatetimeInJune_window g hwf pc.2
  have hfs_nonneg : (0 : ℤ) ≤ fs.1 := by
    rw [hfs]
    unfold sampleIntHours
    have := hwf.randint_lo profile.stayLo (max profile.stayLo profile.stayHi)
      fa.2 (le_max_left _ _)
    have h0 := hok.2.2.1
    omega
  have hdep : pyTrunc fa.1 ≤ pyTrunc (fa.1 + (fs.1 : ℚ) * 3600) := by
    refine pyTrunc_mono ?_
    have : (0 : ℚ) ≤ (fs.1 : ℚ) := by exact_mod_cast hfs_nonneg
    nlinarith
  have main : ∀ (fport : ℤ) (s0 : σ),
      (match backWalk g planets profile v.id pc.1.toNat logId fa.1 fport s0 with
        | none => none
        | some (brows, bid, bs) =>
          some (brows ++ [⟨bid, fport, pyTrunc fa.1, pyTrunc (fa.1 + (fs.1 : ℚ) * 3600), v.id⟩],
            bid + 1, bs)) = some (rows, logId', s') →
      ∃ last, rows.getLast? = some last ∧ inWindow last.arrival ∧
        ∀ r ∈ rows, r.arrival ≤ last.arrival ∧ r.arrival ≤ r.departure := by
    intro fport s0 hm
    cases hbw : backWalk g planets profile v.id pc.1.toNat logId fa.1 fport s0 with
    | none => rw [hbw] at hm; simp at hm
    | some triple =>
      rw [hbw] at hm
      obtain ⟨brows, bid, bs⟩ := triple
      simp only [Option.some.injEq, Prod.mk.injEq] at hm
      obtain ⟨h1, -, -⟩ := hm
      have htimes := backWalk_times g planets profile v.id hwf hok
        pc.1.toNat logId fa.1 fport s0 brows bid bs hbw
      refine ⟨⟨bid, fport, pyTrunc fa.1, pyTrunc (fa.1 + (fs.1 : ℚ) * 3600), v.id⟩, ?_, hwin, ?_⟩
      · rw [← h1]
        exact List.getLast?_concat _
      · intro r hr
        rw [← h1] at hr
        rcases List.mem_append.mp hr with hh | hh
        · obtain ⟨ha, hd⟩ := htimes r hh
          exact ⟨ha, hd⟩
        · simp only [List.mem_singleton] at hh
          subst hh
          exact ⟨le_refl _, hdep⟩
  by_cases hbias : rbias.1 < FINAL_PORT_FLAG_BIAS ∧ v.flag ∈ planetIds
  · rw [if_pos hbias] at h
    exact main v.flag rbias.2 h
  · rw [if_neg hbias] at h
    cases hfp : (pickPlanetWeighted g planets none rbias.2).1 with
    | none => rw [hfp] at h; simp at h
    | some p =>
      rw [hfp] at h
      exact main p (pickPlanetWeighted g planets none rbias.2).2 h

end Log

namespace Log

theorem logsGo_struct {σ : Type} (g : RandGen σ) (planets : List Planet)
    (planetIds : List ℤ) (maxPrev : ℤ)
    (hpid : planetIds = planets.map Planet.id) :
    ∀ (vs : List VesselIn) (logId : Nat) (s : σ) (rows : List LogRow)
      (logId' : Nat) (s' : σ),
      logsGo g planets planetIds maxPrev vs logId s = some (rows, logId', s') →
      rows.map LogRow.id = List.range' logId rows.length ∧
      logId' = logId + rows.length ∧
      ∀ r ∈ rows, r.vessel ∈ vs.map VesselIn.id ∧ r.port ∈ planets.map Planet.id := by
  intro vs
  induction vs with
  | nil =>
    intro logId s rows logId' s' h
    simp only [logsGo, Option.some.injEq, Prod.mk.injEq] at h
    obtain ⟨rfl, rfl, rfl⟩ := h
    refine ⟨by simp, by simp, ?_⟩
    intro r hr; simp at hr
  | cons u rest ih =>
    intro logId s rows logId' s' h
    simp only [logsGo] at h
    cases hve : vesselEntry g planets planetIds u maxPrev logId s with
    | none => rw [hve] at h; simp at h
    | some triple =>
      rw [hve] at h
      obtain ⟨brows, bid, bs⟩ := triple
      dsimp only at h
      cases hlg : logsGo g planets planetIds maxPrev rest bid bs with
      | none => rw [hlg] at h; simp at h
      | some triple2 =>
        rw [hlg] at h
        obtain ⟨rrows, rid, rs⟩ := triple2
        simp only [Option.some.injEq, Prod.mk.injEq] at h
        obtain ⟨h1, h2, -⟩ := h
        obtain ⟨v1, v2, v3, v4⟩ := vesselEntry_struct g planets planetIds u maxPrev
          hpid logId s brows bid bs hve
        obtain ⟨g1, g2, g3⟩ := ih bid bs rrows rid rs hlg
        have hlen : rows.length = brows.length + rrows.length := by
          rw [← h1, List.length_append]
        refine ⟨?_, ?_, ?_⟩
        · rw [hlen, ← h1, List.map_append, v1, g1, v2, List.range'_append_1,
            Nat.add_comm]
        · rw [hlen, ← h2, g2, v2]
          omega
        · intro r hr
          rw [← h1] at hr
          simp only [List.map_cons, List.mem_cons]
          rcases List.mem_append.mp hr with hh | hh
          · exact ⟨Or.inl (v4 r hh).1, (v4 r hh).2⟩
          · exact ⟨Or.inr (g3 r hh).1, (g3 r hh).2⟩

theorem logsGo_filter {σ : Type} (g : RandGen σ) (planets : List Planet)
    (planetIds : List ℤ) (maxPrev : ℤ)
    (hpid : planetIds = planets.map Planet.id) :
    ∀ (vs : List VesselIn) (logId : Nat) (s : σ) (rows : List LogRow)
      (logId' : Nat) (s' : σ) (v : VesselIn),
      v ∈ vs → (vs.map VesselIn.id).Nodup →
      logsGo g planets planetIds maxPrev vs logId s = some (rows, logId', s') →
      ∃ (logId0 : Nat) (s0 : σ) (blk : List LogRow) (bid : Nat) (bs : σ),
        vesselEntry g planets planetIds v maxPrev logId0 s0 = some (blk, bid, bs) ∧
        rows.filter (fun r => decide (r.vessel = v.id)) = blk := by
  intro vs
  induction vs with
  | nil => intro logId s rows logId' s' v hv; exact absurd hv (List.not_mem_nil v)
  | cons u rest ih =>
    intro logId s rows logId' s' v hv hnd h
    simp only [List.map_cons, List.nodup_cons] at hnd
    obtain ⟨huid, hndrest⟩ := hnd
    simp only [logsGo] at h
    cases hve : vesselEntry g planets planetIds u maxPrev logId s with
    | none => rw [hve] at h; simp at h
    | some triple =>
      rw [hve] at h
      obtain ⟨brows, bid, bs⟩ := triple
      dsimp only at h
      cases hlg : logsGo g planets planetIds maxPrev rest bid bs with
      | none => rw [hlg] at h; simp at h
      | some triple2 =>
        rw [hlg] at h
        obtain ⟨rrows, rid, rs⟩ := triple2
        simp only [Option.some.injEq, Prod.mk.injEq] at h
        obtain ⟨h1, -, -⟩ := h
        obtain ⟨-, -, -, v4⟩ := vesselEntry_struct g planets planetIds u maxPrev
          hpid logId s brows bid bs hve
        obtain ⟨-, -, g3⟩ := logsGo_struct g planets planetIds maxPrev hpid
          rest bid bs rrows rid rs hlg
        rcases List.mem_cons.mp hv with hveq | hvmem
        · subst hveq
          refine ⟨logId, s, brows, bid, bs, hve, ?_⟩
          rw [← h1, List.filter_append]
          have hfb : brows.filter (fun r => decide (r.vessel = v.id)) = brows := by
            refine List.filter_eq_self.mpr ?_
            intro r hr
            simp only [decide_eq_true_eq]
            exact (v4 r hr).1
          have hfr : rrows.filter (fun r => decide (r.vessel = v.id)) = [] := by
            refine List.filter_eq_nil_iff.mpr ?_
            intro r hr
            simp only [decide_eq_true_eq]
            intro hcontra
            exact huid (hcontra ▸ (g3 r hr).1)
          rw [hfb, hfr, List.append_nil]
        · have huv : u.id ≠ v.id := by
            intro hcontra
            exact huid (hcontra ▸ List.mem_map_of_mem VesselIn.id hvmem)
          obtain ⟨l0, s0, blk, bid2, bs2, hve2, hfilter⟩ :=
            ih bid bs rrows rid rs v hvmem hndrest hlg
          refine ⟨l0, s0, blk, bid2, bs2, hve2, ?_⟩
          rw [← h1, List.filter_append]
          have hfb : brows.filter (fun r => decide (r.vessel = v.id)) = [] := by
            refine List.filter_eq_nil_iff.mpr ?_
            intro r hr
            simp only [decide_eq_true_eq]
            intro hcontra
            exact huv ((v4 r hr).1.symm ▸ hcontra)
          rw [hfb, List.nil_append, hfilter]

end Log

namespace Log

theorem prevCountDraw_bounds {σ : Type} (g : RandGen σ) (profile : Profile)
    (maxPrev : ℤ) (s : σ) (hwf : WF g) :
    profile.prevLo ≤ (prevCountDraw g profile maxPrev s).1 ∧
      (prevCountDraw g profile maxPrev s).1 ≤
        max profile.prevLo (min profile.prevHi maxPrev) := by
  simp only [prevCountDraw]
  set pmax0 := min profile.prevHi maxPrev with hp0
  by_cases hlt : pmax0 < profile.prevLo
  · rw [if_pos hlt]
    have h1 := hwf.randint_lo profile.prevLo profile.prevLo s (le_refl _)
    have h2 := hwf.randint_hi profile.prevLo profile.prevLo s (le_refl _)
    constructor
    · exact h1
    · exact le_trans h2 (le_max_left _ _)
  · rw [if_neg hlt]
    push_neg at hlt
    have h1 := hwf.randint_lo profile.prevLo pmax0 s hlt
    have h2 := hwf.randint_hi profile.prevLo pmax0 s hlt
    exact ⟨h1, le_trans h2 (le_max_right _ _)⟩

end Log

namespace Vessels

/-- The zipped weights of `weighted_choice` sum to the full weight list
when the lengths agree. -/
theorem zip_weights_sum {α : Type} (items : List α) (weights : List ℚ)
    (hlen : items.length = weights.length) :
    ((items.zip weights).map (fun p => p.2)).sum = weights.sum := by
  have : (items.zip weights).map Prod.snd = weights := by
    exact List.map_snd_zip items weights (le_of_eq hlen.symm)
  simpa using congrArg List.sum this

/-- Amended zero-weight rule: when the drawn `r` is strictly positive
and within the total weight, `weighted_choice` returns the value of a
pair with strictly positive weight (so a zero-weight pair can only be
returned on the boundary draw `r = 0` or through the final fallback). -/
theorem weightedChoice_pos_weight {σ α : Type} (g : RandGen σ) (items : List α)
    (weights : List ℚ) (h : items ≠ []) (s : σ)
    (hw : ∀ w ∈ weights, 0 ≤ w)
    (hlen : items.length = weights.length)
    (hpos : 0 < (g.uniform 0 weights.sum s).1)
    (hle : (g.uniform 0 weights.sum s).1 ≤ weights.sum) :
    ∃ p ∈ items.zip weights, (weightedChoice g items weights h s).1 = p.1 ∧ 0 < p.2 := by
  have hzw : ∀ q ∈ items.zip weights, 0 ≤ q.2 := by
    intro q hq
    exact hw q.2 (List.of_mem_zip hq).2
  have hsum : (g.uniform 0 weights.sum s).1 ≤
      0 + ((items.zip weights).map (fun p => p.2)).sum := by
    rw [zip_weights_sum items weights hlen, zero_add]
    exact hle
  obtain ⟨p, hp, hfirst, hppos⟩ :=
    wcFirst_pos (items.zip weights) (g.uniform 0 weights.sum s).1 0 hzw hpos hsum
  refine ⟨p, hp, ?_, hppos⟩
  unfold weightedChoice
  simp only [hfirst, Option.getD_some]

end Vessels

namespace Log

theorem generateLogs_inv {σ : Type} (g : RandGen σ) (planets : List Planet)
    (vessels : List VesselIn) (seed : Option ℤ) (maxPrev : ℤ) (s : σ)
    (rows : List LogRow)
    (h : generateLogs g planets vessels seed maxPrev s = some rows) :
    ∃ (logId' : Nat) (s' : σ),
      logsGo g planets (planets.map Planet.id) maxPrev vessels 1
        (seedState g seed s) = some (rows, logId', s') := by
  simp only [generateLogs] at h
  cases hl : logsGo g planets (planets.map Planet.id) maxPrev vessels 1
      (seedState g seed s) with
  | none => rw [hl] at h; simp at h
  | some t =>
    rw [hl] at h
    obtain ⟨r1, r2, r3⟩ := t
    have h2 : some r1 = some rows := h
    injection h2 with h1
    refine ⟨r2, r3, ?_⟩
    simp only [← h1]

end Log

/-! ## Shared concrete inputs for witnesses and counterexamples

The witnesses below evaluate the generators on explicit draw queues, so
the arithmetic on `ℚ` must reduce; the core rational operations are
restored to their definitional unfolding for the remainder of the file. -/

attribute [local semireducible] Rat.add Rat.sub Rat.mul Rat.inv Rat.ofScientific

def wPlanets1 : List Planet := [⟨1, "normal"⟩]

def wPlanets2 : List Planet := [⟨1, "normal"⟩, ⟨2, "normal"⟩]

theorem wPlanets2_ne : wPlanets2 ≠ [] := List.cons_ne_nil _ _

def wVessels : List VesselIn := [⟨1, "SS Test", "Ada Lovelace", "tanker", 1⟩]

/-- Output rows of `generate_logs` on `wPlanets2`/`wVessels` with the
all-zero draw queue (checked by `decide` below). -/
def wLogRows : List Log.LogRow :=
  [⟨1, 2, 31664520000, 31664563200, 1⟩, ⟨2, 1, 31664736000, 31664822400, 1⟩]

/-! ## Claim theorems -/

/-- C1: referential integrity of every generated table: every generated
Vessel row's `flag` is an id of the input CelestialBody table; every
Person row's `nationality` and `vessel` are ids of the input
CelestialBody and Vessel tables (given input vessels whose flags are
valid, as the pipeline guarantees); every CargoLine row's `vessel` is an
input Vessel id; and in every completed log run, every LogEntry row's
`port` and `vessel` are input CelestialBody and Vessel ids. -/
theorem C1_referential_integrity :
    (∀ (σ : Type) (g : RandGen σ) (count : Nat) (planets : List Planet)
      (hp : planets ≠ []) (seed : Option ℤ) (s : σ),
      ∀ row ∈ Vessels.generateVessels g count planets hp seed s,
        row.flag ∈ planets.map Planet.id) ∧
    (∀ (σ : Type) (g : RandGen σ) (planets : List Planet) (hp : planets ≠ [])
      (vessels : List VesselIn) (scale : ℚ) (s : σ),
      (∀ v ∈ vessels, v.flag ∈ planets.map Planet.id) →
      ∀ r ∈ Passenger.generatePassengers g planets hp vessels scale s,
        r.nationality ∈ planets.map Planet.id ∧ r.vessel ∈ vessels.map VesselIn.id) ∧
    (∀ (σ : Type) (g : RandGen σ) (vessels : List VesselIn) (seed : Option ℤ)
      (scale : ℚ) (s : σ),
      ∀ r ∈ Cargo.generateCargo g vessels seed scale s,
        r.vessel ∈ vessels.map VesselIn.id) ∧
    (∀ (σ : Type) (g : RandGen σ) (planets : List Planet) (vessels : List VesselIn)
      (seed : Option ℤ) (maxPrev : ℤ) (s : σ) (rows : List Log.LogRow),
      Log.generateLogs g planets vessels seed maxPrev s = some rows →
      ∀ r ∈ rows, r.port ∈ planets.map Planet.id ∧ r.vessel ∈ vessels.map VesselIn.id) := by
  refine ⟨?_, ?_, ?_, ?_⟩
  · intro σ g count planets hp seed s row hrow
    exact Vessels.generateVessels_flags g count planets hp seed s row hrow
  · intro σ g planets hp vessels scale s hflags r hr
    obtain ⟨h1, h2⟩ := Passenger.passengersGo_fields g planets hp scale vessels [] s hflags r hr
    exact ⟨h2, h1⟩
  · intro σ g vessels seed scale s r hr
    exact Cargo.generateCargo_vessels g vessels seed scale s r hr
  · intro σ g planets vessels seed maxPrev s rows hrun r hr
    obtain ⟨logId', s', hl⟩ := Log.generateLogs_inv g planets vessels seed maxPrev s rows hrun
    obtain ⟨-, -, h3⟩ := Log.logsGo_struct g planets (planets.map Planet.id) maxPrev rfl
      vessels 1 (seedState g seed s) rows logId' s' hl
    exact ⟨(h3 r hr).2, (h3 r hr).1⟩

/-- C1 witness: the referential-integrity theorem applied at a concrete
two-planet catalogue and a one-tanker fleet. -/
theorem C1_witness :
    wPlanets2 ≠ [] ∧
    (∀ v ∈ wVessels, v.flag ∈ wPlanets2.map Planet.id) ∧
    Log.generateLogs listGen wPlanets2 wVessels none 8 [] = some wLogRows ∧
    (∀ row ∈ Vessels.generateVessels listGen 2 wPlanets2 wPlanets2_ne none [],
      row.flag ∈ wPlanets2.map Planet.id) ∧
    (∀ r ∈ Passenger.generatePassengers listGen wPlanets2 wPlanets2_ne wVessels 0 [],
      r.nationality ∈ wPlanets2.map Planet.id ∧ r.vessel ∈ wVessels.map VesselIn.id) ∧
    (∀ r ∈ Cargo.generateCargo listGen wVessels none 1 [],
      r.vessel ∈ wVessels.map VesselIn.id) ∧
    (∀ r ∈ wLogRows, r.port ∈ wPlanets2.map Planet.id ∧
      r.vessel ∈ wVessels.map VesselIn.id) :=
  ⟨by decide, by decide, by decide,
   C1_referential_integrity.1 (List ℚ) listGen 2 wPlanets2 wPlanets2_ne none [],
   C1_referential_integrity.2.1 (List ℚ) listGen wPlanets2 wPlanets2_ne wVessels 0 []
     (by decide),
   C1_referential_integrity.2.2.1 (List ℚ) listGen wVessels none 1 [],
   C1_referential_integrity.2.2.2 (List ℚ) listGen wPlanets2 wVessels none 8 [] wLogRows
     (by decide)⟩

/-- C2: determinism under explicit seeding: two runs of the catalogue
generator (resp. the log generator) with the same explicit integer seed,
the same inputs and the same parameters, started from arbitrary ambient
random states, produce identical output rows (hence byte-identical
output tables). -/
theorem C2_determinism :
    ∀ (σ : Type) (g : RandGen σ) (k : ℤ) (n : Nat) (planets : List Planet)
      (vessels : List VesselIn) (maxPrev : ℤ) (s1 s2 : σ),
      Planets.generatePlanets g n (some k) s1 = Planets.generatePlanets g n (some k) s2 ∧
      Log.generateLogs g planets vessels (some k) maxPrev s1 =
        Log.generateLogs g planets vessels (some k) maxPrev s2 := by
  intro σ g k n planets vessels maxPrev s1 s2
  exact ⟨rfl, rfl⟩

/-- C3: name uniqueness: for every count and every random stream the
generated CelestialBody names are pairwise distinct (including the
bounded-retry and `-pid`-suffix fallback path); for every vessel count
the Vessel names are pairwise distinct (including the `" (idx)"` suffix
path); and across one whole crew/passenger run the Person names are
pairwise distinct (including the retry and `" #idx"` suffix paths). -/
theorem C3_name_uniqueness :
    (∀ (σ : Type) (g : RandGen σ) (n : Nat) (seed : Option ℤ) (s : σ),
      ((Planets.generatePlanets g n seed s).map Planets.PRow.name).Nodup) ∧
    (∀ (σ : Type) (g : RandGen σ) (count : Nat) (planets : List Planet)
      (hp : planets ≠ []) (seed : Option ℤ) (s : σ),
      ((Vessels.generateVessels g count planets hp seed s).map Vessels.VRow.name).Nodup) ∧
    (∀ (σ : Type) (g : RandGen σ) (planets : List Planet) (hp : planets ≠ [])
      (vessels : List VesselIn) (scale : ℚ) (s : σ),
      ((Passenger.generatePassengers g planets hp vessels scale s).map
        Passenger.PersonRow.name).Nodup) := by
  refine ⟨?_, ?_, ?_⟩
  · intro σ g n seed s
    exact Planets.generatePlanets_names_nodup g n seed s
  · intro σ g count planets hp seed s
    exact Vessels.generateVessels_names_nodup g count planets hp seed s
  · intro σ g planets hp vessels scale s
    exact Passenger.generatePassengers_names_nodup g planets hp vessels scale s

/-- C3 witness: uniqueness at concrete runs that exercise both fallback
paths (the all-zero stream forces 100 planet-name collisions, resolved
as "HD 100 b-2"/"HD 100 b-3", and a vessel-name collision resolved as
"SS Azure Nomad (2)"). -/
theorem C3_witness :
    wPlanets2 ≠ [] ∧
    ((Planets.generatePlanets listGen 3 none []).map Planets.PRow.name).Nodup ∧
    ((Vessels.generateVessels listGen 2 wPlanets2 wPlanets2_ne none []).map
      Vessels.VRow.name).Nodup ∧
    ((Passenger.generatePassengers listGen wPlanets2 wPlanets2_ne wVessels 0 []).map
      Passenger.PersonRow.name).Nodup :=
  ⟨by decide,
   C3_name_uniqueness.1 (List ℚ) listGen 3 none [],
   C3_name_uniqueness.2.1 (List ℚ) listGen 2 wPlanets2 wPlanets2_ne none [],
   C3_name_uniqueness.2.2 (List ℚ) listGen wPlanets2 wPlanets2_ne wVessels 0 []⟩

/-! ## Concrete inputs for the remaining claims -/

/-- A one-vessel fleet whose type resolves to the `passenger liner`
profile (previous-stop range 2-6). -/
def wVesselsPL : List VesselIn := [⟨1, "SS Test", "Ada Lovelace", "passenger liner", 1⟩]

/-- Draw queue: previous-stop draw 1 (giving `prev_count = 2` for the
tanker profile 1-4) and anchor `June 27, 23:59:59`; the remaining draws
pop the empty-queue default 0. -/
def wC4Stream : List ℚ := [1, 27, 23, 59, 59]

/-- Output rows of `generate_logs` on `wPlanets2`/`wVessels` with queue
`wC4Stream` (checked by `decide` below): the two previous stops are
emitted newest-first, so arrivals go 31666939199, 31666723199 and only
then the anchor 31667155199. -/
def wC4Rows : List Log.LogRow :=
  [⟨1, 2, 31666939199, 31666982399, 1⟩,
   ⟨2, 1, 31666723199, 31666766399, 1⟩,
   ⟨3, 1, 31667155199, 31667241599, 1⟩]

/-- Draw queue: previous-stop draw 0 (giving `prev_count = 1`) and
anchor `June 27, 23:59:59`. -/
def wC5Stream : List ℚ := [0, 27, 23, 59, 59]

/-- Output rows of `generate_logs` on `wPlanets2`/`wVessels` with queue
`wC5Stream`: the single previous stop lands 60 hours before the anchor,
still inside June 1-28. -/
def wC5Rows : List Log.LogRow :=
  [⟨1, 2, 31666939199, 31666982399, 1⟩,
   ⟨2, 1, 31667155199, 31667241599, 1⟩]

/-- Output rows of `generate_logs` on `wPlanets2`/`wVesselsPL` with cap
`max_prev = 1` and the all-zero queue: the passenger-liner profile lower
bound 2 overrides the cap, so three rows are emitted. -/
def wC6Rows : List Log.LogRow :=
  [⟨1, 2, 31664628000, 31664649600, 1⟩,
   ⟨2, 1, 31664520000, 31664541600, 1⟩,
   ⟨3, 1, 31664736000, 31664779200, 1⟩]

/-- Is the `arrival` field non-decreasing along the list (the rows taken
in emission order)? -/
def arrivalsNondecreasing : List Log.LogRow → Bool
  | [] => true
  | [_] => true
  | a :: b :: rest => decide (a.arrival ≤ b.arrival) && arrivalsNondecreasing (b :: rest)

/-- C4: per-vessel log chronology.  The `arrival ≤ departure` clause and
the final-row-in-window clause hold on this run, but the claimed
emission-order monotonicity is refuted: the backward walk of
`generate_log.py:213-243` appends previous stops newest-first, so the
same vessel's arrivals read 31666939199, 31666723199, 31667155199 in
emission order — decreasing before the anchor row — contradicting the
code's own closing comment (`generate_log.py:255-258`, "older entries
first"). -/
theorem C4_chronology_bug :
    Log.generateLogs listGen wPlanets2 wVessels none 8 wC4Stream = some wC4Rows ∧
    (∀ r ∈ wC4Rows, r.vessel = 1 ∧ r.arrival ≤ r.departure) ∧
    wC4Rows.getLast? = some ⟨3, 1, 31667155199, 31667241599, 1⟩ ∧
    Log.inWindow (31667155199 : ℤ) ∧
    arrivalsNondecreasing wC4Rows = false := by decide

/-- C5 (amended): in every completed log run, for every vessel of the
input table, the rows belonging to that vessel end with a row whose
arrival lies inside the June 2973 day 1-28 window, and every row of the
vessel arrives no later than that final row (and no later than its own
departure).  The original "exactly one row in the window" clause is
refuted separately: earlier stops may also fall inside the window. -/
theorem C5_anchor_amended :
    ∀ (σ : Type) (g : RandGen σ), WF g →
    ∀ (planets : List Planet) (vessels : List VesselIn) (seed : Option ℤ)
      (maxPrev : ℤ) (s : σ) (rows : List Log.LogRow) (v : VesselIn),
      v ∈ vessels → (vessels.map VesselIn.id).Nodup →
      Log.generateLogs g planets vessels seed maxPrev s = some rows →
      ∃ last,
        (rows.filter (fun r => decide (r.vessel = v.id))).getLast? = some last ∧
        Log.inWindow last.arrival ∧
        ∀ r ∈ rows.filter (fun r => decide (r.vessel = v.id)),
          r.arrival ≤ last.arrival ∧ r.arrival ≤ r.departure := by
  intro σ g hwf planets vessels seed maxPrev s rows v hv hnd hrun
  obtain ⟨logId2, s2, hgo⟩ :=
    Log.generateLogs_inv g planets vessels seed maxPrev s rows hrun
  obtain ⟨logId0, s0, blk, bid, bs, hve, hfilter⟩ :=
    Log.logsGo_filter g planets (planets.map Planet.id) maxPrev rfl vessels 1
      (seedState g seed s) rows logId2 s2 v hv hnd hgo
  obtain ⟨last, hlast, hwin, hall⟩ :=
    Log.vesselEntry_times g planets (planets.map Planet.id) v maxPrev hwf
      logId0 s0 blk bid bs hve
  rw [hfilter]
  exact ⟨last, hlast, hwin, hall⟩

/-- C5 witness: the amended anchor property applied at the concrete
two-planet catalogue, one-tanker fleet and all-zero draw queue. -/
theorem C5_witness :
    ∃ last,
      (wLogRows.filter (fun r => decide (r.vessel = (1 : ℤ)))).getLast? = some last ∧
      Log.inWindow last.arrival ∧
      ∀ r ∈ wLogRows.filter (fun r => decide (r.vessel = (1 : ℤ))),
        r.arrival ≤ last.arrival ∧ r.arrival ≤ r.departure :=
  C5_anchor_amended (List ℚ) listGen listGen_wf wPlanets2 wVessels none 8 []
    wLogRows ⟨1, "SS Test", "Ada Lovelace", "tanker", 1⟩
    (by decide) (by decide) (by decide)

/-- C5 counterexample: a concrete run in which two rows of the same
vessel have arrivals inside the June 2973 day 1-28 window, refuting the
"exactly one" clause (the previous stop lies 60 hours before a late
anchor, still inside the window). -/
theorem C5_two_rows_in_window :
    Log.generateLogs listGen wPlanets2 wVessels none 8 wC5Stream = some wC5Rows ∧
    (∀ r ∈ wC5Rows, r.vessel = 1) ∧
    wC5Rows.countP (fun r => decide (Log.inWindow r.arrival)) = 2 := by decide

/-- C6 (amended): the drawn previous-stop count `N` satisfies
`prevLo ≤ N ≤ max prevLo (min prevHi maxPrev)`, and the vessel emits
`N + 1` rows; when the cap falls below the profile's lower bound the
code raises the upper bound back to `prevLo`
(`generate_log.py:192-193`), so `N` can exceed the cap — the claimed
"never exceeds the global cap" is refuted separately. -/
theorem C6_prev_cap_amended :
    ∀ (σ : Type) (g : RandGen σ), WF g →
    ∀ (planets : List Planet) (planetIds : List ℤ),
      planetIds = planets.map Planet.id →
    ∀ (v : VesselIn) (maxPrev : ℤ) (logId : Nat) (s : σ)
      (rows : List Log.LogRow) (logId2 : Nat) (s2 : σ),
      Log.vesselEntry g planets planetIds v maxPrev logId s = some (rows, logId2, s2) →
      (Log.typeProfilesGet (canonicalType v.vtype)).prevLo ≤
        (Log.prevCountDraw g (Log.typeProfilesGet (canonicalType v.vtype)) maxPrev s).1 ∧
      (Log.prevCountDraw g (Log.typeProfilesGet (canonicalType v.vtype)) maxPrev s).1 ≤
        max (Log.typeProfilesGet (canonicalType v.vtype)).prevLo
          (min (Log.typeProfilesGet (canonicalType v.vtype)).prevHi maxPrev) ∧
      rows.length =
        (Log.prevCountDraw g (Log.typeProfilesGet (canonicalType v.vtype)) maxPrev s).1.toNat
          + 1 := by
  intro σ g hwf planets planetIds hpid v maxPrev logId s rows logId2 s2 h
  obtain ⟨hlo, hhi⟩ :=
    Log.prevCountDraw_bounds g (Log.typeProfilesGet (canonicalType v.vtype)) maxPrev s hwf
  exact ⟨hlo, hhi,
    (Log.vesselEntry_struct g planets planetIds v maxPrev hpid logId s rows
      logId2 s2 h).2.2.1⟩

/-- C6 witness: the amended bounds applied at the concrete
passenger-liner vessel with cap 1 and the all-zero queue. -/
theorem C6_witness :
    (Log.typeProfilesGet (canonicalType "passenger liner")).prevLo ≤
      (Log.prevCountDraw listGen
        (Log.typeProfilesGet (canonicalType "passenger liner")) 1 []).1 ∧
    (Log.prevCountDraw listGen
        (Log.typeProfilesGet (canonicalType "passenger liner")) 1 []).1 ≤
      max (Log.typeProfilesGet (canonicalType "passenger liner")).prevLo
        (min (Log.typeProfilesGet (canonicalType "passenger liner")).prevHi 1) ∧
    wC6Rows.length =
      (Log.prevCountDraw listGen
        (Log.typeProfilesGet (canonicalType "passenger liner")) 1 []).1.toNat + 1 :=
  C6_prev_cap_amended (List ℚ) listGen listGen_wf wPlanets2 [1, 2] (by decide)
    ⟨1, "SS Test", "Ada Lovelace", "passenger liner", 1⟩ 1 1 [] wC6Rows 4 []
    (by decide)

/-- C6 counterexample: with the positive cap `max_prev = 1` and the
passenger-liner profile (previous-stop range 2-6), the drawn count is 2,
exceeding the cap, and the vessel emits 3 rows. -/
theorem C6_cap_exceeded :
    (0 : ℤ) < 1 ∧
    (Log.prevCountDraw listGen
        (Log.typeProfilesGet (canonicalType "passenger liner")) 1 []).1 = 2 ∧
    ¬ (Log.prevCountDraw listGen
        (Log.typeProfilesGet (canonicalType "passenger liner")) 1 []).1 ≤ 1 ∧
    Log.generateLogs listGen wPlanets2 wVesselsPL none 1 [] = some wC6Rows ∧
    wC6Rows.length = 3 := by decide

/-- C7: port-exclusion fallback totality is refuted.  On a non-empty
one-body catalogue, excluding the following step's port empties the
candidate list; `pick_planet_weighted` then evaluates `items[-1]` on an
empty list and raises `IndexError` (modelled as `none`) instead of
returning `None`, so the `candidate is None` fallback of
`generate_log.py:227-229` is dead code and the whole run aborts. -/
theorem C7_exclusion_abort :
    wPlanets1 ≠ [] ∧
    (Log.pickPlanetWeighted listGen wPlanets1 (some 1) []).1 = none ∧
    Log.generateLogs listGen wPlanets1 wVessels none 8 [] = none := by decide

/-- C8 (amended): whenever the drawn `r = uniform(0, total)` is strictly
positive and at most the total weight, `weighted_choice` returns the
value of a pair with strictly positive weight; a zero-weight entry can
also be returned on the boundary draw `r = 0` (the comparison is
`r <= acc`), which the original claim does not allow. -/
theorem C8_zero_weight_amended :
    ∀ (σ α : Type) (g : RandGen σ) (items : List α) (weights : List ℚ)
      (h : items ≠ []) (s : σ),
      (∀ w ∈ weights, 0 ≤ w) →
      items.length = weights.length →
      0 < (g.uniform 0 weights.sum s).1 →
      (g.uniform 0 weights.sum s).1 ≤ weights.sum →
      ∃ p ∈ items.zip weights,
        (Vessels.weightedChoice g items weights h s).1 = p.1 ∧ 0 < p.2 := by
  intro σ α g items weights h s hw hlen hpos hle
  exact Vessels.weightedChoice_pos_weight g items weights h s hw hlen hpos hle

/-- C8 witness: the positive-weight guarantee applied at items `[10, 20]`
with weights `[1, 1]` and the draw queue `[1/2]` (so `r = 1`). -/
theorem C8_witness :
    (0 : ℚ) < (listGen.uniform 0 ([(1 : ℚ), 1].sum) [mkRat 1 2]).1 ∧
    (listGen.uniform 0 ([(1 : ℚ), 1].sum) [mkRat 1 2]).1 ≤ [(1 : ℚ), 1].sum ∧
    ∃ p ∈ ([(10 : ℤ), 20].zip [(1 : ℚ), 1]),
      (Vessels.weightedChoice listGen [(10 : ℤ), 20] [(1 : ℚ), 1]
        (List.cons_ne_nil _ _) [mkRat 1 2]).1 = p.1 ∧ 0 < p.2 :=
  ⟨by decide, by decide,
   C8_zero_weight_amended (List ℚ) ℤ listGen [10, 20] [1, 1]
     (List.cons_ne_nil _ _) [mkRat 1 2] (by decide) (by decide)
     (by decide) (by decide)⟩

/-- C8 counterexample: with the boundary draw `random.random() = 0`, the
planet-status sampler returns the first pair `("z", 0)` — a zero-weight
entry that is not the final-entry fallback — because `0 <= 0 + 0`. -/
theorem C8_zero_weight_returned :
    (Planets.weightedChoice listGen [("z", (0 : ℚ)), ("a", 1)]
        (List.cons_ne_nil _ _) [0]).1 = "z" ∧ "z" ≠ "a" := by decide

/-- C9: for every vessel of the input table (with pairwise-distinct
vessel ids), the crew/passenger generator emits exactly one Person row
with role "captain" for that vessel; it is the first row of the vessel's
block (hence precedes its crew and passenger rows), its nationality is
the vessel's flag, and when the vessel's captain name is non-empty
(Python truthiness) and not already used by an earlier vessel's rows,
the row's name is exactly the vessel's captain name (otherwise a freshly
drawn unique name is used). -/
theorem C9_captain_emission :
    ∀ (σ : Type) (g : RandGen σ) (planets : List Planet) (hp : planets ≠ [])
      (vessels : List VesselIn) (scale : ℚ) (s : σ) (v : VesselIn),
      v ∈ vessels → (vessels.map VesselIn.id).Nodup →
      ((Passenger.generatePassengers g planets hp vessels scale s).countP
          (fun r => decide (r.vessel = v.id ∧ r.role = "captain"))) = 1 ∧
      ∃ cap,
        ((Passenger.generatePassengers g planets hp vessels scale s).filter
          (fun r => decide (r.vessel = v.id))).head? = some cap ∧
        cap.role = "captain" ∧ cap.nationality = v.flag ∧
        (v.captain ≠ "" →
          v.captain ∉
            (((Passenger.generatePassengers g planets hp vessels scale s).takeWhile
              (fun r => decide (r.vessel ≠ v.id))).map Passenger.PersonRow.name) →
          cap.name = v.captain) := by
  intro σ g planets hp vessels scale s v hv hnd
  obtain ⟨h1, cap, hhead, hrole, hnat, hex, htw, hpref⟩ :=
    Passenger.passengersGo_captain g planets hp scale vessels [] s v hv hnd
  refine ⟨h1, cap, hhead, hrole, hnat, ?_⟩
  intro hne hnotin
  exact hpref hne (List.not_mem_nil _) hnotin

/-- C9 witness: the captain-emission property applied at the concrete
two-planet catalogue and one-tanker fleet. -/
theorem C9_witness :
    ((Passenger.generatePassengers listGen wPlanets2 wPlanets2_ne wVessels 0 []).countP
        (fun r => decide (r.vessel = (1 : ℤ) ∧ r.role = "captain"))) = 1 ∧
    ∃ cap,
      ((Passenger.generatePassengers listGen wPlanets2 wPlanets2_ne wVessels 0 []).filter
        (fun r => decide (r.vessel = (1 : ℤ)))).head? = some cap ∧
      cap.role = "captain" ∧ cap.nationality = (1 : ℤ) ∧
      ("Ada Lovelace" ≠ "" →
        "Ada Lovelace" ∉
          (((Passenger.generatePassengers listGen wPlanets2 wPlanets2_ne wVessels
              0 []).takeWhile
            (fun r => decide (r.vessel ≠ (1 : ℤ)))).map Passenger.PersonRow.name) →
        cap.name = "Ada Lovelace") :=
  C9_captain_emission (List ℚ) listGen wPlanets2 wPlanets2_ne wVessels 0 []
    ⟨1, "SS Test", "Ada Lovelace", "tanker", 1⟩ (by decide) (by decide)

/-- C10: contiguous id sequences: in every run the CargoLine ids are
exactly `1, 2, ..., total` in emission order, and in every completed log
run the LogEntry ids are exactly `1, 2, ..., total` in emission order —
starting at 1, never skipping, never repeating, across vessel
boundaries. -/
theorem C10_contiguous_ids :
    ∀ (σ : Type) (g : RandGen σ),
      (∀ (vessels : List VesselIn) (seed : Option ℤ) (scale : ℚ) (s : σ),
        (Cargo.generateCargo g vessels seed scale s).map Cargo.CargoRow.id =
          List.range' 1 (Cargo.generateCargo g vessels seed scale s).length) ∧
      (∀ (planets : List Planet) (vessels : List VesselIn) (seed : Option ℤ)
          (maxPrev : ℤ) (s : σ) (rows : List Log.LogRow),
        Log.generateLogs g planets vessels seed maxPrev s = some rows →
        rows.map Log.LogRow.id = List.range' 1 rows.length) := by
  intro σ g
  constructor
  · intro vessels seed scale s
    exact Cargo.generateCargo_ids g vessels seed scale s
  · intro planets vessels seed maxPrev s rows h
    obtain ⟨logId2, s2, hgo⟩ :=
      Log.generateLogs_inv g planets vessels seed maxPrev s rows h
    exact (Log.logsGo_struct g planets (planets.map Planet.id) maxPrev rfl vessels 1
      (seedState g seed s) rows logId2 s2 hgo).1

/-- C10 witness: contiguous ids on a concrete completed log run and a
concrete cargo run. -/
theorem C10_witness :
    Log.generateLogs listGen wPlanets2 wVessels none 8 [] = some wLogRows ∧
    wLogRows.map Log.LogRow.id = List.range' 1 wLogRows.length ∧
    (Cargo.generateCargo listGen wVessels none 1 []).map Cargo.CargoRow.id =
      List.range' 1 (Cargo.generateCargo listGen wVessels none 1 []).length :=
  ⟨by decide,
   (C10_contiguous_ids (List ℚ) listGen).2 wPlanets2 wVessels none 8 [] wLogRows
     (by decide),
   (C10_contiguous_ids (List ℚ) listGen).1 wVessels none 1 []⟩
